import Mathlib

/-!
Verification development for the ai-research-agent backend.

The Python sources under `backend/app` are shallowly embedded as Lean
functions and a small state machine:
  * `services/external_apis.py` → `ContentProcessor` text utilities,
    `gather_research_data`;
  * `services/research.py`      → pure transformers over a `DB` record;
  * `tasks/research_workflow.py`→ `start_research_workflow`, a sequential
    5-stage runner threaded through a `WFState` (DB plus an event trace).
Strings are modelled over ASCII (`Char.toLower`, `Char.isAlphanum`,
`Char.isWhitespace` stand in for Python `str.lower`, `\w` and `\s`);
wall-clock time is a `Nat` tick counter carried by the DB.
-/

/-! ## Generic list machinery

Python `list.sort(key=…, reverse=True)` and `sorted(…, key=…, reverse=True)`
are stable descending sorts.  `insertDesc`/`sortDescBy` embed them as a
stable insertion sort: an element is inserted before the first element whose
key is not larger, so elements with equal keys keep their original order. -/

def insertDesc {α β : Type} [LinearOrder β] (key : α → β) (x : α) : List α → List α
  | [] => [x]
  | y :: ys => if key x < key y then y :: insertDesc key x ys else x :: y :: ys

def sortDescBy {α β : Type} [LinearOrder β] (key : α → β) : List α → List α
  | [] => []
  | x :: xs => insertDesc key x (sortDescBy key xs)

theorem mem_insertDesc {α β : Type} [LinearOrder β] (key : α → β) (x a : α) :
    ∀ l : List α, a ∈ insertDesc key x l ↔ a = x ∨ a ∈ l := by
  intro l
  induction l with
  | nil => simp [insertDesc]
  | cons y ys ih =>
    by_cases h : key x < key y
    · simp only [insertDesc, if_pos h, List.mem_cons, ih]
      tauto
    · simp only [insertDesc, if_neg h, List.mem_cons]

theorem mem_sortDescBy {α β : Type} [LinearOrder β] (key : α → β) (a : α) :
    ∀ l : List α, a ∈ sortDescBy key l ↔ a ∈ l := by
  intro l
  induction l with
  | nil => simp [sortDescBy]
  | cons x xs ih => simp [sortDescBy, mem_insertDesc, ih]

/-- Inserting into a list that is pairwise ordered by the combined relation
(key strictly larger, or equal keys and `R`) preserves that ordering, as long
as the inserted element is `R`-below every element of equal key. -/
theorem pairwise_insertDesc {α β : Type} [LinearOrder β] (key : α → β)
    (R : α → α → Prop) (x : α) :
    ∀ l : List α,
      List.Pairwise (fun a b => key b < key a ∨ (key a = key b ∧ R a b)) l →
      (∀ y ∈ l, key x = key y → R x y) →
      List.Pairwise (fun a b => key b < key a ∨ (key a = key b ∧ R a b))
        (insertDesc key x l) := by
  intro l
  induction l with
  | nil => intro _ _; simp [insertDesc]
  | cons y ys ih =>
    intro hp hx
    rcases List.pairwise_cons.mp hp with ⟨hy, hys⟩
    by_cases h : key x < key y
    · rw [insertDesc, if_pos h]
      refine List.pairwise_cons.mpr ⟨?_, ?_⟩
      · intro b hb
        rcases (mem_insertDesc key x b ys).mp hb with hb | hb
        · exact Or.inl (hb ▸ h)
        · exact hy b hb
      · exact ih hys (fun y hyy => hx y (List.mem_cons_of_mem _ hyy))
    · rw [insertDesc, if_neg h]
      have hxy : key y ≤ key x := le_of_not_lt h
      refine List.pairwise_cons.mpr ⟨?_, hp⟩
      intro b hb
      rcases List.mem_cons.mp hb with hb | hb
      · rcases lt_or_eq_of_le (hb ▸ hxy) with hlt | heq
        · exact Or.inl hlt
        · exact Or.inr ⟨heq.symm, hx b (List.mem_cons.mpr (Or.inl hb)) heq.symm⟩
      · rcases hy b hb with hlt | ⟨heq, _⟩
        · rcases lt_or_eq_of_le hxy with hlt2 | heq2
          · exact Or.inl (lt_trans hlt hlt2)
          · exact Or.inl (heq2 ▸ hlt)
        · rcases lt_or_eq_of_le hxy with hlt2 | heq2
          · exact Or.inl (heq ▸ hlt2)
          · exact Or.inr ⟨heq2.symm.trans heq, hx b (List.mem_cons_of_mem _ hb) (heq2.symm.trans heq)⟩

theorem pairwise_sortDescBy {α β : Type} [LinearOrder β] (key : α → β)
    (R : α → α → Prop) :
    ∀ l : List α, List.Pairwise R l →
      List.Pairwise (fun a b => key b < key a ∨ (key a = key b ∧ R a b))
        (sortDescBy key l) := by
  intro l
  induction l with
  | nil => intro _; simp [sortDescBy]
  | cons x xs ih =>
    intro hp
    rcases List.pairwise_cons.mp hp with ⟨hx, hxs⟩
    refine pairwise_insertDesc key R x (sortDescBy key xs) (ih hxs) ?_
    intro y hy _
    exact hx y ((mem_sortDescBy key y xs).mp hy)

theorem pairwise_key_sortDescBy {α β : Type} [LinearOrder β] (key : α → β)
    (l : List α) :
    List.Pairwise (fun a b => key b ≤ key a) (sortDescBy key l) := by
  have htriv : List.Pairwise (fun _ _ => True) l := by
    induction l with
    | nil => exact List.Pairwise.nil
    | cons x xs ih => exact List.Pairwise.cons (fun _ _ => trivial) ih
  have h := pairwise_sortDescBy key (fun _ _ => True) l htriv
  refine h.imp ?_
  intro a b hab
  rcases hab with h1 | ⟨h1, _⟩
  · exact le_of_lt h1
  · exact le_of_eq h1.symm

/-- Stability of the insertion when the inserted key differs from `v`:
the `v`-class of the list is untouched. -/
theorem filter_insertDesc_ne {α β : Type} [LinearOrder β] (key : α → β)
    (x : α) (v : β) (hne : ¬ key x = v) :
    ∀ l : List α,
      (insertDesc key x l).filter (fun a => decide (key a = v)) =
        l.filter (fun a => decide (key a = v)) := by
  intro l
  induction l with
  | nil => simp [insertDesc, hne]
  | cons y ys ih =>
    by_cases h : key x < key y
    · rw [insertDesc, if_pos h]
      by_cases hy : key y = v
      · simp [List.filter_cons, hy, ih]
      · simp [List.filter_cons, hy, ih]
    · rw [insertDesc, if_neg h]
      simp [List.filter_cons, hne]

/-- Stability of the insertion at the inserted key's own class: `x` lands in
front of the other elements of its class (it came earlier in the original). -/
theorem filter_insertDesc_eq {α β : Type} [LinearOrder β] (key : α → β)
    (x : α) (v : β) (heq : key x = v) :
    ∀ l : List α,
      (insertDesc key x l).filter (fun a => decide (key a = v)) =
        x :: l.filter (fun a => decide (key a = v)) := by
  intro l
  induction l with
  | nil => simp [insertDesc, heq]
  | cons y ys ih =>
    by_cases h : key x < key y
    · have hy : ¬ key y = v := by
        intro hv
        rw [heq] at h
        exact absurd hv (ne_of_gt h)
      rw [insertDesc, if_pos h]
      simp [List.filter_cons, hy, ih]
    · rw [insertDesc, if_neg h]
      simp [List.filter_cons, heq]

/-- The sort is stable: every key-class of the output lists exactly the
same elements, in the same order, as that key-class of the input. -/
theorem filter_sortDescBy {α β : Type} [LinearOrder β] (key : α → β) (v : β) :
    ∀ l : List α,
      (sortDescBy key l).filter (fun a => decide (key a = v)) =
        l.filter (fun a => decide (key a = v)) := by
  intro l
  induction l with
  | nil => simp [sortDescBy]
  | cons x xs ih =>
    by_cases hx : key x = v
    · rw [sortDescBy, filter_insertDesc_eq key x v hx, ih, List.filter_cons]
      simp [hx]
    · rw [sortDescBy, filter_insertDesc_ne key x v hx, ih, List.filter_cons]
      simp [hx]

/-- `find?` over an id-respecting in-place update: the first hit is the
updated first hit of the original list. -/
theorem find?_map_ite {α : Type} (p : α → Bool) (f : α → α)
    (hf : ∀ a, p (f a) = p a) :
    ∀ l : List α,
      (l.map fun a => if p a then f a else a).find? p = (l.find? p).map f := by
  intro l
  induction l with
  | nil => rfl
  | cons x xs ih =>
    by_cases hx : p x = true
    · simp [List.find?_cons, hx, hf]
    · simp only [Bool.not_eq_true] at hx
      simp [List.find?_cons, hx, hf, ih]

theorem count_filter_of_pos {α : Type} [DecidableEq α] (p : α → Bool) (a : α)
    (hp : p a = true) :
    ∀ l : List α, (l.filter p).count a = l.count a := by
  intro l
  induction l with
  | nil => rfl
  | cons x xs ih =>
    by_cases hx : p x = true
    · simp [List.filter_cons, hx, List.count_cons, ih]
    · have hax : ¬ x = a := by
        intro h
        rw [h, hp] at hx
        exact hx rfl
      simp only [Bool.not_eq_true] at hx
      simp [List.filter_cons, hx, List.count_cons, ih, hax]

/-- Strict index order inside a filtered list transfers to the base list. -/
theorem indexOf_lt_of_filter {α : Type} [DecidableEq α] (p : α → Bool)
    (a b : α) (hpa : p a = true) (hpb : p b = true) :
    ∀ l : List α,
      (l.filter p).indexOf a < (l.filter p).indexOf b →
      l.indexOf a < l.indexOf b := by
  intro l
  induction l with
  | nil => simp
  | cons c t ih =>
    intro h
    cases hc : p c with
    | true =>
      rw [List.filter_cons_of_pos hc] at h
      by_cases hca : c = a
      · subst hca
        have hcb : ¬ c = b := by
          intro hb
          subst hb
          simp [List.indexOf_cons] at h
        rw [List.indexOf_cons, List.indexOf_cons]
        have hb : (c == b) = false := by simp [hcb]
        simp [hb]
      · by_cases hcb : c = b
        · exfalso
          subst hcb
          rw [List.indexOf_cons, List.indexOf_cons] at h
          have ha : (c == a) = false := by simp [hca]
          simp [ha] at h
        · rw [List.indexOf_cons, List.indexOf_cons] at h ⊢
          have ha : (c == a) = false := by simp [hca]
          have hb : (c == b) = false := by simp [hcb]
          simp only [ha, hb, cond_false] at h ⊢
          have hlt := ih (by omega)
          omega
    | false =>
      have hca : ¬ c = a := by
        intro h2
        rw [h2, hpa] at hc
        exact Bool.noConfusion hc
      have hcb : ¬ c = b := by
        intro h2
        rw [h2, hpb] at hc
        exact Bool.noConfusion hc
      rw [List.filter_cons_of_neg (by simp [hc])] at h
      rw [List.indexOf_cons, List.indexOf_cons]
      have ha : (c == a) = false := by simp [hca]
      have hb : (c == b) = false := by simp [hcb]
      simp only [ha, hb, cond_false]
      have hlt := ih h
      omega

/-! ## Insertion-ordered frequency maps

Python builds keyword frequencies with `d[w] = d.get(w, 0) + 1` over a
`dict`, which keeps keys in first-insertion order; `sorted(d.items(), …)`
then iterates them in that order.  `bumpFreq`/`buildFreq` embed the dict as
an association list: an existing key is bumped in place, a new key is
appended at the end. -/

def bumpFreq {α : Type} [DecidableEq α] : List (α × Nat) → α → List (α × Nat)
  | [], w => [(w, 1)]
  | p :: rest, w => if p.1 = w then (p.1, p.2 + 1) :: rest else p :: bumpFreq rest w

def buildFreq {α : Type} [DecidableEq α] (ws : List α) : List (α × Nat) :=
  ws.foldl bumpFreq []

/-- The keys a list of items would insert, in first-seen order. -/
def firstSeen {α : Type} [DecidableEq α] : List α → List α
  | [] => []
  | w :: ws => w :: (firstSeen ws).filter (fun v => decide (¬ v = w))

def assocVal {α : Type} [DecidableEq α] (l : List (α × Nat)) (k : α) : Nat :=
  match l.find? (fun p => p.1 == k) with
  | some p => p.2
  | none => 0

theorem mem_firstSeen {α : Type} [DecidableEq α] (a : α) :
    ∀ l : List α, a ∈ firstSeen l → a ∈ l := by
  intro l
  induction l with
  | nil => simp [firstSeen]
  | cons w ws ih =>
    intro h
    rcases List.mem_cons.mp h with h | h
    · exact h ▸ List.mem_cons_self _ _
    · exact List.mem_cons_of_mem _ (ih (List.mem_of_mem_filter h))

/-- `firstSeen` lists keys in strictly increasing first-occurrence order. -/
theorem pairwise_indexOf_firstSeen {α : Type} [DecidableEq α] :
    ∀ l : List α,
      List.Pairwise (fun a b => l.indexOf a < l.indexOf b) (firstSeen l) := by
  intro l
  induction l with
  | nil => simp [firstSeen]
  | cons w ws ih =>
    rw [firstSeen]
    refine List.pairwise_cons.mpr ⟨?_, ?_⟩
    · intro b hb
      have hbw : ¬ b = w := by
        have := List.of_mem_filter hb
        simpa using this
      rw [List.indexOf_cons, List.indexOf_cons]
      have h1 : (w == w) = true := by simp
      have h2 : (w == b) = false := by
        simp only [beq_eq_false_iff_ne, ne_eq]
        exact fun h => hbw h.symm
      simp [h1, h2]
    · have hsub : List.Pairwise (fun a b => ws.indexOf a < ws.indexOf b)
          ((firstSeen ws).filter (fun v => decide (¬ v = w))) :=
        ih.sublist (List.filter_sublist _)
      refine hsub.imp_of_mem ?_
      intro a b ha hb hab
      have haw : ¬ a = w := by simpa using List.of_mem_filter ha
      have hbw : ¬ b = w := by simpa using List.of_mem_filter hb
      rw [List.indexOf_cons, List.indexOf_cons]
      have h1 : (w == a) = false := by
        simp only [beq_eq_false_iff_ne, ne_eq]
        exact fun h => haw h.symm
      have h2 : (w == b) = false := by
        simp only [beq_eq_false_iff_ne, ne_eq]
        exact fun h => hbw h.symm
      simp only [h1, h2, cond_false]
      omega

theorem keysOf_bumpFreq {α : Type} [DecidableEq α] (w : α) :
    ∀ l : List (α × Nat),
      (bumpFreq l w).map Prod.fst =
        if w ∈ l.map Prod.fst then l.map Prod.fst else l.map Prod.fst ++ [w] := by
  intro l
  induction l with
  | nil => simp [bumpFreq]
  | cons p rest ih =>
    by_cases hp : p.1 = w
    · rw [bumpFreq, if_pos hp]
      simp [hp]
    · rw [bumpFreq, if_neg hp]
      by_cases hw : w ∈ rest.map Prod.fst
      · simp only [List.map_cons, ih, if_pos hw]
        rw [if_pos (List.mem_cons_of_mem _ hw)]
      · simp only [List.map_cons, ih, if_neg hw]
        rw [if_neg ?hn]
        · simp
        case hn =>
          intro hmem
          rcases List.mem_cons.mp hmem with h | h
          · exact hp h.symm
          · exact hw h

theorem assocVal_bumpFreq {α : Type} [DecidableEq α] (w k : α) :
    ∀ l : List (α × Nat),
      assocVal (bumpFreq l w) k =
        if k = w then assocVal l k + 1 else assocVal l k := by
  intro l
  induction l with
  | nil =>
    by_cases hk : k = w
    · simp [bumpFreq, assocVal, List.find?, hk]
    · have hwk : (w == k) = false := by
        simp only [beq_eq_false_iff_ne, ne_eq]
        exact fun h => hk h.symm
      simp [bumpFreq, assocVal, List.find?, hwk, hk]
  | cons p rest ih =>
    by_cases hp : p.1 = w
    · rw [bumpFreq, if_pos hp]
      by_cases hk : k = w
      · have h1 : (p.1 == k) = true := by simp [hp, hk]
        simp only [assocVal, List.find?, h1]
        rw [if_pos hk]
      · have h1 : (p.1 == k) = false := by
          simp only [beq_eq_false_iff_ne, ne_eq]
          intro h
          apply hk
          rw [← h, hp]
        simp only [assocVal, List.find?, h1]
        rw [if_neg hk]
    · rw [bumpFreq, if_neg hp]
      by_cases h1 : (p.1 == k) = true
      · have hkw : ¬ k = w := by
          intro h2
          apply hp
          rw [beq_iff_eq] at h1
          rw [h1, h2]
        simp only [assocVal, List.find?, h1]
        rw [if_neg hkw]
      · have h1f : (p.1 == k) = false := by
          cases h2 : (p.1 == k)
          · rfl
          · exact absurd h2 h1
        simp only [assocVal, List.find?, h1f]
        exact ih

theorem nodup_keysOf_bumpFreq {α : Type} [DecidableEq α] (w : α)
    (l : List (α × Nat)) (h : (l.map Prod.fst).Nodup) :
    ((bumpFreq l w).map Prod.fst).Nodup := by
  rw [keysOf_bumpFreq]
  by_cases hw : w ∈ l.map Prod.fst
  · rw [if_pos hw]; exact h
  · rw [if_neg hw]
    refine List.Nodup.append h (List.nodup_singleton w) ?_
    intro a ha hb
    rw [List.mem_singleton.mp hb] at ha
    exact hw ha

theorem foldl_bumpFreq_spec {α : Type} [DecidableEq α] :
    ∀ (ws : List α) (acc : List (α × Nat)), (acc.map Prod.fst).Nodup →
      ((ws.foldl bumpFreq acc).map Prod.fst).Nodup ∧
      (∀ k, assocVal (ws.foldl bumpFreq acc) k = assocVal acc k + ws.count k) ∧
      (ws.foldl bumpFreq acc).map Prod.fst =
        acc.map Prod.fst ++
          (firstSeen ws).filter (fun k => decide (¬ k ∈ acc.map Prod.fst)) := by
  intro ws
  induction ws with
  | nil =>
    intro acc h
    refine ⟨h, ?_, ?_⟩
    · intro k; simp
    · simp [firstSeen]
  | cons w rest ih =>
    intro acc h
    have hacc : ((bumpFreq acc w).map Prod.fst).Nodup := nodup_keysOf_bumpFreq w acc h
    obtain ⟨ih1, ih2, ih3⟩ := ih (bumpFreq acc w) hacc
    rw [List.foldl_cons]
    refine ⟨ih1, ?_, ?_⟩
    · intro k
      rw [ih2 k, assocVal_bumpFreq, List.count_cons]
      by_cases hk : k = w
      · have hbeq : (w == k) = true := by simp [hk]
        rw [if_pos hk, hbeq]
        simp
        omega
      · have hbeq : (w == k) = false := by
          simp only [beq_eq_false_iff_ne, ne_eq]
          exact fun h2 => hk h2.symm
        rw [if_neg hk, hbeq]
        simp
    · rw [ih3, keysOf_bumpFreq]
      by_cases hw : w ∈ acc.map Prod.fst
      · rw [if_pos hw, firstSeen, List.filter_cons]
        have hwd : (decide (¬ w ∈ acc.map Prod.fst)) = false := by simp [hw]
        rw [hwd]
        simp only [Bool.false_eq_true, if_false, List.filter_filter]
        congr 1
        apply List.filter_congr
        intro k _
        by_cases hkw : k = w
        · subst hkw
          simp [hw]
        · simp [hkw]
      · rw [if_neg hw, firstSeen, List.filter_cons]
        have hwd : (decide (¬ w ∈ acc.map Prod.fst)) = true := by simp [hw]
        rw [hwd]
        simp only [if_true, List.filter_filter, List.append_assoc,
          List.singleton_append]
        congr 2
        apply List.filter_congr
        intro k _
        by_cases hkw : k = w
        · subst hkw
          simp
        · simp [hkw, List.mem_append]

theorem keysOf_buildFreq {α : Type} [DecidableEq α] (ws : List α) :
    (buildFreq ws).map Prod.fst = firstSeen ws := by
  obtain ⟨_, _, h3⟩ := foldl_bumpFreq_spec ws [] (by simp)
  rw [buildFreq, h3]
  simp

theorem nodup_keysOf_buildFreq {α : Type} [DecidableEq α] (ws : List α) :
    ((buildFreq ws).map Prod.fst).Nodup := by
  obtain ⟨h1, _, _⟩ := foldl_bumpFreq_spec ws [] (by simp)
  exact h1

theorem assocVal_buildFreq {α : Type} [DecidableEq α] (ws : List α) (k : α) :
    assocVal (buildFreq ws) k = ws.count k := by
  obtain ⟨_, h2, _⟩ := foldl_bumpFreq_spec ws [] (by simp)
  rw [buildFreq, h2 k]
  simp [assocVal, List.find?]

theorem assocVal_of_mem {α : Type} [DecidableEq α] (k : α) (v : Nat) :
    ∀ l : List (α × Nat), (l.map Prod.fst).Nodup → (k, v) ∈ l →
      assocVal l k = v := by
  intro l
  induction l with
  | nil => intro _ h; simp at h
  | cons p rest ih =>
    intro hnd hmem
    rcases List.mem_cons.mp hmem with heq | hmem2
    · have h1 : (p.1 == k) = true := by simp [← heq]
      simp [assocVal, List.find?, h1, ← heq]
    · have hk : k ∈ rest.map Prod.fst :=
        List.mem_map_of_mem Prod.fst hmem2
      rw [List.map_cons] at hnd
      have hnd2 := List.nodup_cons.mp hnd
      have hp1 : ¬ p.1 = k := by
        intro hcontra
        exact hnd2.1 (hcontra ▸ hk)
      have h1 : (p.1 == k) = false := by simp [hp1]
      simp only [assocVal, List.find?, h1]
      exact ih hnd2.2 hmem2

theorem snd_of_mem_buildFreq {α : Type} [DecidableEq α] (k : α) (v : Nat)
    (ws : List α) (h : (k, v) ∈ buildFreq ws) : v = ws.count k := by
  rw [← assocVal_buildFreq ws k]
  exact (assocVal_of_mem k v (buildFreq ws) (nodup_keysOf_buildFreq ws) h).symm

/-! ## Text utilities (`services/external_apis.py`, class `ContentProcessor`)

ASCII model of the Python string pipeline: `str.lower` is `Char.toLower`,
the regex class `\w` is `Char.isAlphanum` or an underscore, `\s` is
`Char.isWhitespace`, `str.strip()` is `stripChars`, and `str.split()` is
`splitWsAux [] ·` (split on whitespace runs, dropping empty pieces). -/

/-- `text.lower()` followed by `re.sub(r'[^\w\s]', ' ', ·)`, one character
at a time. -/
def normChar (c : Char) : Char :=
  let c2 := c.toLower
  if c2.isAlphanum ∨ c2 = '_' ∨ c2.isWhitespace then c2 else ' '

/-- Python `str.split()`: split on whitespace runs, no empty tokens. -/
def splitWsAux : List Char → List Char → List (List Char)
  | acc, [] => if acc.isEmpty then [] else [acc.reverse]
  | acc, c :: cs =>
    if c.isWhitespace then
      if acc.isEmpty then splitWsAux [] cs else acc.reverse :: splitWsAux [] cs
    else splitWsAux (c :: acc) cs

/-- The token stream of `extract_keywords`: lower-cased, punctuation
replaced by spaces, split on whitespace. -/
def tokenize (text : String) : List String :=
  (splitWsAux [] (text.data.map normChar)).map (fun cs => String.mk cs)

/-- The fixed stop-word set of `ContentProcessor.extract_keywords`. -/
def stop_words : List String :=
  ["the", "a", "an", "and", "or", "but", "in", "on", "at", "to", "for", "of", "with",
   "by", "from", "up", "about", "into", "through", "during", "before", "after",
   "above", "below", "between", "among", "is", "are", "was", "were", "be", "been",
   "being", "have", "has", "had", "do", "does", "did", "will", "would", "could",
   "should", "may", "might", "must", "can", "this", "that", "these", "those",
   "i", "you", "he", "she", "it", "we", "they", "me", "him", "her", "us", "them"]

/-- The tokens that enter the frequency dict: length strictly above 3 and
not a stop word. -/
def qualTokens (text : String) : List String :=
  (tokenize text).filter (fun w => decide (3 < w.length) && decide (¬ w ∈ stop_words))

/-- `ContentProcessor.extract_keywords`: frequency count over the
qualifying tokens (dict in first-seen order), stable sort by count
descending, truncate. -/
def extract_keywords (text : String) (max_keywords : Nat) : List String :=
  if text = "" then []
  else
    (((sortDescBy (fun p => p.2) (buildFreq (qualTokens text))).take
        max_keywords).map (fun p => p.1))

def stripChars (l : List Char) : List Char :=
  ((l.dropWhile Char.isWhitespace).reverse.dropWhile Char.isWhitespace).reverse

/-- Python `str.strip()`. -/
def pyStrip (s : String) : String := String.mk (stripChars s.data)

def isSentCh (c : Char) : Bool := decide (c = '.' ∨ c = '!' ∨ c = '?')

/-- Split on single `.!?` characters.  `re.split(r'[.!?]+', text)` splits on
runs instead, which differs only by extra empty pieces between consecutive
delimiters — and `generate_summary` drops empty (stripped) pieces right
after, so the two agree after that filter. -/
def splitOnSent : List Char → List (List Char)
  | [] => [[]]
  | c :: cs =>
    if isSentCh c then [] :: splitOnSent cs
    else
      match splitOnSent cs with
      | [] => [[c]]
      | p :: ps => (c :: p) :: ps

/-- The non-empty stripped sentences of a text, in order. -/
def sentencesOf (text : String) : List String :=
  ((splitOnSent text.data).map (fun cs => String.mk (stripChars cs))).filter
    (fun s => decide (¬ s = ""))

/-- Python `sep.join(l)`. -/
def pyJoin (sep : String) : List String → String
  | [] => ""
  | x :: xs => xs.foldl (fun acc y => acc ++ sep ++ y) x

/-- `ContentProcessor.generate_summary` (the Python local `sentences` is
inlined as `sentencesOf text`). -/
def generate_summary (text : String) (max_sentences : Nat) : String :=
  if text = "" then ""
  else if (sentencesOf text).length ≤ max_sentences then
    pyJoin ". " (sentencesOf text) ++ "."
  else
    pyJoin ". " ((sentencesOf text).take max_sentences) ++ "."


theorem mem_qualTokens_prop (text : String) (w : String)
    (h : w ∈ qualTokens text) : 3 < w.length ∧ ¬ w ∈ stop_words := by
  have hp := List.of_mem_filter h
  simp only [Bool.and_eq_true, decide_eq_true_eq] at hp
  exact hp

theorem count_qualTokens (text : String) (w : String)
    (h : w ∈ qualTokens text) :
    (qualTokens text).count w = (tokenize text).count w := by
  rw [qualTokens] at h ⊢
  exact count_filter_of_pos _ w (List.of_mem_filter h) (tokenize text)

theorem mem_fst_buildFreq_qual (text : String) (p : String × Nat)
    (h : p ∈ buildFreq (qualTokens text)) : p.1 ∈ qualTokens text := by
  have h1 : p.1 ∈ (buildFreq (qualTokens text)).map Prod.fst :=
    List.mem_map_of_mem Prod.fst h
  rw [keysOf_buildFreq] at h1
  exact mem_firstSeen p.1 _ h1

/-- C6: `extract_keywords` is a deterministic function of its input; no
output token has length ≤ 3 or lies in the stop-word set; at most 10
keywords come back; and they are ordered by descending frequency in the
token stream, ties broken by first-seen order there. -/
theorem extract_keywords_spec (text : String) :
    (∀ t1 t2 : String, t1 = t2 →
      extract_keywords t1 10 = extract_keywords t2 10) ∧
    (∀ w ∈ extract_keywords text 10, 3 < w.length ∧ ¬ w ∈ stop_words) ∧
    (extract_keywords text 10).length ≤ 10 ∧
    List.Pairwise
      (fun a b => (tokenize text).count b < (tokenize text).count a ∨
        ((tokenize text).count a = (tokenize text).count b ∧
          (tokenize text).indexOf a < (tokenize text).indexOf b))
      (extract_keywords text 10) := by
  refine ⟨fun t1 t2 h => by rw [h], ?_, ?_, ?_⟩
  · intro w hw
    by_cases ht : text = ""
    · rw [extract_keywords, if_pos ht] at hw
      simp at hw
    · rw [extract_keywords, if_neg ht] at hw
      obtain ⟨p, hp, hpw⟩ := List.mem_map.mp hw
      have hp2 : p ∈ sortDescBy (fun p => p.2) (buildFreq (qualTokens text)) :=
        (List.take_sublist _ _).mem hp
      have hp3 : p ∈ buildFreq (qualTokens text) :=
        (mem_sortDescBy _ p _).mp hp2
      exact hpw ▸ mem_qualTokens_prop text p.1 (mem_fst_buildFreq_qual text p hp3)
  · by_cases ht : text = ""
    · rw [extract_keywords, if_pos ht]
      simp
    · rw [extract_keywords, if_neg ht]
      rw [List.length_map]
      exact List.length_take_le _ _
  · by_cases ht : text = ""
    · rw [extract_keywords, if_pos ht]
      simp
    · rw [extract_keywords, if_neg ht]
      set fl := buildFreq (qualTokens text) with hfl_def
      have hkeys : List.Pairwise
          (fun a b => (qualTokens text).indexOf a < (qualTokens text).indexOf b)
          (fl.map Prod.fst) := by
        rw [hfl_def, keysOf_buildFreq]
        exact pairwise_indexOf_firstSeen (qualTokens text)
      have hfl : List.Pairwise
          (fun p q => (tokenize text).indexOf p.1 < (tokenize text).indexOf q.1)
          fl := by
        have h1 := List.pairwise_map.mp hkeys
        refine h1.imp_of_mem ?_
        intro p q hp hq hpq
        have hp1 := List.of_mem_filter (mem_fst_buildFreq_qual text p hp)
        have hq1 := List.of_mem_filter (mem_fst_buildFreq_qual text q hq)
        exact indexOf_lt_of_filter _ p.1 q.1 hp1 hq1 (tokenize text) hpq
      have hsorted := pairwise_sortDescBy (fun p => p.2) _ fl hfl
      have htake := hsorted.sublist (List.take_sublist 10 _)
      rw [List.pairwise_map]
      refine htake.imp_of_mem ?_
      intro p q hp hq hpq
      have hpfl : p ∈ fl :=
        (mem_sortDescBy _ p _).mp ((List.take_sublist _ _).mem hp)
      have hqfl : q ∈ fl :=
        (mem_sortDescBy _ q _).mp ((List.take_sublist _ _).mem hq)
      have hpc : p.2 = (tokenize text).count p.1 := by
        rw [← count_qualTokens text p.1 (mem_fst_buildFreq_qual text p hpfl)]
        exact (Prod.mk.eta (p := p)) ▸
          snd_of_mem_buildFreq p.1 p.2 _ (by rw [Prod.mk.eta]; exact hpfl)
      have hqc : q.2 = (tokenize text).count q.1 := by
        rw [← count_qualTokens text q.1 (mem_fst_buildFreq_qual text q hqfl)]
        exact (Prod.mk.eta (p := q)) ▸
          snd_of_mem_buildFreq q.1 q.2 _ (by rw [Prod.mk.eta]; exact hqfl)
      rcases hpq with h1 | ⟨h1, h2⟩
      · exact Or.inl (hpc ▸ hqc ▸ h1)
      · exact Or.inr ⟨hpc ▸ hqc ▸ h1, h2⟩

/-! ## Sentence-splitting facts for `generate_summary` -/

theorem mem_of_mem_dropWhile {α : Type} (p : α → Bool) (c : α)
    (l : List α) (h : c ∈ l.dropWhile p) : c ∈ l := by
  have := List.takeWhile_append_dropWhile (p := p) (l := l)
  rw [← this]
  exact List.mem_append_right _ h

theorem mem_of_mem_stripChars (c : Char) (l : List Char)
    (h : c ∈ stripChars l) : c ∈ l := by
  rw [stripChars] at h
  rw [List.mem_reverse] at h
  have h2 := mem_of_mem_dropWhile _ c _ h
  rw [List.mem_reverse] at h2
  exact mem_of_mem_dropWhile _ c _ h2

theorem dropWhile_idem {α : Type} (p : α → Bool) :
    ∀ l : List α, (l.dropWhile p).dropWhile p = l.dropWhile p := by
  intro l
  induction l with
  | nil => rfl
  | cons x xs ih =>
    by_cases hx : p x = true
    · rw [List.dropWhile_cons, if_pos hx, ih]
    · rw [List.dropWhile_cons, if_neg hx, List.dropWhile_cons, if_neg hx]

theorem dropWhile_head_false {α : Type} (p : α → Bool) :
    ∀ l : List α, l.dropWhile p = [] ∨
      ∃ x xs, l.dropWhile p = x :: xs ∧ p x = false := by
  intro l
  induction l with
  | nil => exact Or.inl rfl
  | cons y ys ih =>
    by_cases hy : p y = true
    · rw [List.dropWhile_cons, if_pos hy]
      exact ih
    · rw [List.dropWhile_cons, if_neg hy]
      refine Or.inr ⟨y, ys, rfl, ?_⟩
      cases h : p y
      · rfl
      · exact absurd h hy

theorem stripChars_cons_ws (c : Char) (l : List Char)
    (hc : c.isWhitespace = true) : stripChars (c :: l) = stripChars l := by
  rw [stripChars, stripChars, List.dropWhile_cons, if_pos hc]

theorem dropWhile_cons_false {α : Type} (p : α → Bool) (x : α) (xs : List α)
    (hx : p x = false) : (x :: xs).dropWhile p = x :: xs := by
  rw [List.dropWhile_cons, hx]
  simp

theorem stripChars_idem (l : List Char) :
    stripChars (stripChars l) = stripChars l := by
  rcases h1 : List.dropWhile Char.isWhitespace
      ((List.dropWhile Char.isWhitespace l).reverse) with _ | ⟨y, ys⟩
  · have hs : stripChars l = [] := by
      rw [stripChars, h1]
      rfl
    rw [hs]
    rfl
  · have hy : Char.isWhitespace y = false := by
      rcases dropWhile_head_false Char.isWhitespace
          ((List.dropWhile Char.isWhitespace l).reverse) with h | ⟨z, zs, hz, hpz⟩
      · rw [h1] at h
        exact absurd h (List.cons_ne_nil _ _)
      · rw [h1] at hz
        injection hz with e1 _
        rw [← e1] at hpz
        exact hpz
    have hs : stripChars l = (y :: ys).reverse := by rw [stripChars, h1]
    have hd : List.dropWhile Char.isWhitespace l =
        (y :: ys).reverse ++
          ((List.dropWhile Char.isWhitespace l).reverse.takeWhile
            Char.isWhitespace).reverse := by
      conv_lhs => rw [← List.reverse_reverse (List.dropWhile Char.isWhitespace l),
        ← List.takeWhile_append_dropWhile (p := Char.isWhitespace)
          (l := (List.dropWhile Char.isWhitespace l).reverse)]
      rw [h1, List.reverse_append]
    rcases hm : (y :: ys).reverse with _ | ⟨x, m2⟩
    · exact absurd hm (by simp)
    · have hx : Char.isWhitespace x = false := by
        rcases dropWhile_head_false Char.isWhitespace l with h | ⟨z, zs, hz, hpz⟩
        · rw [h, hm] at hd
          exact absurd hd.symm (by simp)
        · rw [hz, hm] at hd
          simp only [List.cons_append] at hd
          injection hd with e1 _
          rw [e1] at hpz
          exact hpz
      rw [hs, hm, stripChars, dropWhile_cons_false _ _ _ hx, ← hm,
        List.reverse_reverse, dropWhile_cons_false _ _ _ hy]

theorem splitOnSent_ne_nil : ∀ l : List Char, ∃ p ps, splitOnSent l = p :: ps := by
  intro l
  induction l with
  | nil => exact ⟨[], [], rfl⟩
  | cons c cs ih =>
    obtain ⟨p, ps, hps⟩ := ih
    by_cases hc : isSentCh c = true
    · exact ⟨[], splitOnSent cs, by rw [splitOnSent, if_pos hc]⟩
    · refine ⟨c :: p, ps, ?_⟩
      rw [splitOnSent, if_neg hc, hps]

theorem splitOnSent_pieces :
    ∀ (l : List Char) (piece : List Char), piece ∈ splitOnSent l →
      ∀ c ∈ piece, isSentCh c = false := by
  intro l
  induction l with
  | nil =>
    intro piece hp c hc
    rw [splitOnSent] at hp
    rw [List.mem_singleton.mp hp] at hc
    simp at hc
  | cons x xs ih =>
    intro piece hp c hc
    by_cases hx : isSentCh x = true
    · rw [splitOnSent, if_pos hx] at hp
      rcases List.mem_cons.mp hp with h | h
      · rw [h] at hc
        simp at hc
      · exact ih piece h c hc
    · rw [splitOnSent, if_neg hx] at hp
      obtain ⟨p, ps, hps⟩ := splitOnSent_ne_nil xs
      rw [hps] at hp
      rcases List.mem_cons.mp hp with h | h
      · rw [h] at hc
        rcases List.mem_cons.mp hc with h2 | h2
        · rw [h2]
          cases h3 : isSentCh x
          · rfl
          · exact absurd h3 hx
        · exact ih p (hps ▸ List.mem_cons_self p ps) c h2
      · exact ih piece (hps ▸ List.mem_cons_of_mem p h) c hc

theorem splitOnSent_append (a : List Char)
    (ha : ∀ c ∈ a, isSentCh c = false) :
    ∀ (b : List Char) (p : List Char) (ps : List (List Char)),
      splitOnSent b = p :: ps → splitOnSent (a ++ b) = (a ++ p) :: ps := by
  induction a with
  | nil => intro b p ps h; simpa using h
  | cons c a2 ih =>
    intro b p ps h
    have hc : isSentCh c = false := ha c (List.mem_cons_self _ _)
    rw [List.cons_append, splitOnSent, if_neg (by rw [hc]; simp)]
    rw [ih (fun d hd => ha d (List.mem_cons_of_mem _ hd)) b p ps h]
    simp

def joinDot : List (List Char) → List Char
  | [] => []
  | x :: xs => x ++ (xs.map (fun y => '.' :: ' ' :: y)).flatten

theorem data_append (a b : String) : (a ++ b).data = a.data ++ b.data := rfl

theorem string_eta (s : String) : String.mk s.data = s := rfl

theorem data_pyJoin_dot (l : List String) :
    (pyJoin ". " l).data = joinDot (l.map String.data) := by
  cases l with
  | nil => rfl
  | cons x xs =>
    rw [pyJoin, List.map_cons, joinDot]
    induction xs generalizing x with
    | nil => simp
    | cons y ys ih =>
      rw [List.foldl_cons, List.map_cons, List.map_cons, List.flatten_cons]
      rw [ih (x ++ ". " ++ y)]
      simp [data_append]

theorem split_tail :
    ∀ xs : List (List Char), (∀ p ∈ xs, ∀ c ∈ p, isSentCh c = false) →
      splitOnSent ((xs.map (fun y => '.' :: ' ' :: y)).flatten ++ ['.']) =
        [] :: (xs.map (fun y => ' ' :: y) ++ [[]]) := by
  intro xs
  induction xs with
  | nil => intro _; rfl
  | cons y ys ih =>
    intro h
    have hy : ∀ c ∈ y, isSentCh c = false := h y (List.mem_cons_self _ _)
    have hrest := ih (fun p hp => h p (List.mem_cons_of_mem _ hp))
    rw [List.map_cons, List.flatten_cons]
    have hassoc : (('.' :: ' ' :: y) ++ (ys.map (fun y => '.' :: ' ' :: y)).flatten) ++ ['.'] =
        '.' :: ' ' :: (y ++ ((ys.map (fun y => '.' :: ' ' :: y)).flatten ++ ['.'])) := by
      simp
    rw [hassoc]
    rw [splitOnSent, if_pos (by decide)]
    rw [splitOnSent, if_neg (by decide)]
    rw [splitOnSent_append y hy _ _ _ hrest]
    simp

theorem split_join (x : List Char) (xs : List (List Char))
    (hx : ∀ c ∈ x, isSentCh c = false)
    (hxs : ∀ p ∈ xs, ∀ c ∈ p, isSentCh c = false) :
    splitOnSent (joinDot (x :: xs) ++ ['.']) =
      (x ++ []) :: (xs.map (fun y => ' ' :: y) ++ [[]]) := by
  rw [joinDot, List.append_assoc]
  exact splitOnSent_append x hx _ _ _ (split_tail xs hxs)

/-- Re-splitting a joined list of clean sentences gives the list back:
this is what lets us count the sentences of a `generate_summary` output. -/
theorem sentencesOf_joined (l : List String)
    (h : ∀ s ∈ l, ¬ s = "" ∧ (∀ c ∈ s.data, isSentCh c = false) ∧
      stripChars s.data = s.data) :
    sentencesOf (pyJoin ". " l ++ ".") = l := by
  cases l with
  | nil => rfl
  | cons s rest =>
    have hdata : (pyJoin ". " (s :: rest) ++ ".").data =
        joinDot (s.data :: rest.map String.data) ++ ['.'] := by
      rw [data_append, data_pyJoin_dot]
      rfl
    obtain ⟨hs_ne, hs_nosc, hs_strip⟩ := h s (List.mem_cons_self _ _)
    have hxs : ∀ p ∈ rest.map String.data, ∀ c ∈ p, isSentCh c = false := by
      intro p hp c hc
      obtain ⟨r, hr, hrp⟩ := List.mem_map.mp hp
      exact (h r (List.mem_cons_of_mem _ hr)).2.1 c (hrp ▸ hc)
    rw [sentencesOf, hdata, split_join s.data (rest.map String.data) hs_nosc hxs]
    rw [List.append_nil, List.map_cons, List.filter_cons]
    rw [hs_strip, string_eta]
    rw [List.map_append, List.filter_append]
    have hmap : ((rest.map String.data).map (fun y => ' ' :: y)).map
        (fun cs => String.mk (stripChars cs)) = rest := by
      rw [List.map_map, List.map_map]
      refine (List.map_congr_left ?_).trans (List.map_id rest)
      intro r hr
      have hres := h r (List.mem_cons_of_mem _ hr)
      show String.mk (stripChars (' ' :: r.data)) = r
      rw [stripChars_cons_ws ' ' r.data (by decide), hres.2.2, string_eta]
    rw [hmap]
    have hfilter : rest.filter (fun s => decide (¬ s = "")) = rest := by
      apply List.filter_eq_self.mpr
      intro r hr
      simp only [decide_eq_true_eq]
      exact (h r (List.mem_cons_of_mem _ hr)).1
    rw [hfilter]
    have hempty : ([[]].map (fun cs => String.mk (stripChars cs))).filter
        (fun s => decide (¬ s = "")) = [] := by decide
    rw [hempty, List.append_nil]
    rw [if_pos (by simp [hs_ne])]

theorem sentencesOf_elem_props (text : String) (s : String)
    (h : s ∈ sentencesOf text) :
    ¬ s = "" ∧ (∀ c ∈ s.data, isSentCh c = false) ∧
      stripChars s.data = s.data := by
  rw [sentencesOf] at h
  have hne := List.of_mem_filter h
  simp only [decide_eq_true_eq] at hne
  have hmem := List.mem_of_mem_filter h
  obtain ⟨piece, hpiece, hs⟩ := List.mem_map.mp hmem
  refine ⟨hne, ?_, ?_⟩
  · intro c hc
    rw [← hs] at hc
    exact splitOnSent_pieces text.data piece hpiece c
      (mem_of_mem_stripChars c piece hc)
  · rw [← hs]
    exact stripChars_idem piece

/-- C7: a `generate_summary` output always re-splits into at most 3
sentences; and every non-empty input with at most 3 sentences comes back as
exactly those sentences joined with ". " plus a trailing period.  (The empty
input is the one exception — see the counterexample.) -/
theorem generate_summary_spec (text : String) :
    (sentencesOf (generate_summary text 3)).length ≤ 3 ∧
    (¬ text = "" → (sentencesOf text).length ≤ 3 →
      generate_summary text 3 = pyJoin ". " (sentencesOf text) ++ ".") := by
  constructor
  · by_cases ht : text = ""
    · rw [ht]
      decide
    · rw [generate_summary, if_neg ht]
      by_cases hlen : (sentencesOf text).length ≤ 3
      · rw [if_pos hlen]
        rw [sentencesOf_joined _ (fun s hs => sentencesOf_elem_props text s hs)]
        exact hlen
      · rw [if_neg hlen]
        rw [sentencesOf_joined _
          (fun s hs => sentencesOf_elem_props text s ((List.take_sublist _ _).mem hs))]
        exact List.length_take_le 3 _
  · intro ht hlen
    rw [generate_summary, if_neg ht, if_pos hlen]

/-- C7 counterexample: the empty text splits into 0 ≤ 3 sentences, yet
`generate_summary` returns `""` rather than the rejoined form `"."`. -/
theorem generate_summary_empty_string_cex :
    (sentencesOf "").length ≤ 3 ∧
    ¬ generate_summary "" 3 = pyJoin ". " (sentencesOf "") ++ "." := by
  exact ⟨by decide, by decide⟩

/-! ## Aggregator (`services/external_apis.py`, class `ExternalAPIService`)

Provider calls are external effects: each one either raises or returns a
list of candidate dicts.  `asyncio.gather(…, return_exceptions=True)`
surfaces a raised exception as a value, and `gather_research_data` replaces
it by `[]`, so a provider is modelled as an `Except String (List
RawArticle)`. -/

structure RawArticle where
  title : String
  url : String
  summary : String
  content : String
  source : String
  published_at : Option Nat
  relevance_score : Int
  deriving DecidableEq

structure GatheredArticle where
  title : String
  url : String
  summary : String
  content : String
  source : String
  published_at : Option Nat
  relevance_score : Int
  keywords : List String
  deriving DecidableEq

/-- Python `s[:n]` (character slicing). -/
def pySlice (s : String) (n : Nat) : String := String.mk (s.data.take n)

/-- The enrichment loop body of `gather_research_data`: derive a summary
when the fetched one is empty and body text exists, and attach keywords
extracted from `title + " " + content`. -/
def enrichArticle (a : RawArticle) : GatheredArticle :=
  { title := a.title
    url := a.url
    summary :=
      if a.summary = "" ∧ ¬ a.content = "" then generate_summary a.content 3
      else a.summary
    content := a.content
    source := a.source
    published_at := a.published_at
    relevance_score := a.relevance_score
    keywords := extract_keywords (a.title ++ " " ++ a.content) 10 }

/-- The combined fetch results in provider order (wikipedia then
hackernews), with a failed provider contributing nothing. -/
def fetchedArticles (wiki hn : Except String (List RawArticle)) :
    List RawArticle :=
  (match wiki with | Except.error _ => [] | Except.ok l => l) ++
    (match hn with | Except.error _ => [] | Except.ok l => l)

/-- `ExternalAPIService.gather_research_data`: combine, enrich, stable-sort
by `relevance_score` descending, return the top 5. -/
def gather_research_data (wiki hn : Except String (List RawArticle)) :
    List GatheredArticle :=
  (sortDescBy (fun a => a.relevance_score)
    ((fetchedArticles wiki hn).map enrichArticle)).take 5

/-- C5: whatever the providers produced, the aggregator output has at most
5 items, is sorted by `relevance_score` descending, and the sort is stable:
each relevance class of the output is an initial segment of that relevance
class of the enriched fetch-ordered candidates. -/
theorem gather_research_data_ranked (wiki hn : Except String (List RawArticle)) :
    (gather_research_data wiki hn).length ≤ 5 ∧
    List.Pairwise (fun a b => b.relevance_score ≤ a.relevance_score)
      (gather_research_data wiki hn) ∧
    (∀ v : Int, ∃ rest,
      ((fetchedArticles wiki hn).map enrichArticle).filter
          (fun a => decide (a.relevance_score = v)) =
        (gather_research_data wiki hn).filter
          (fun a => decide (a.relevance_score = v)) ++ rest) := by
  refine ⟨List.length_take_le 5 _, ?_, ?_⟩
  · exact (pairwise_key_sortDescBy
      (fun a : GatheredArticle => a.relevance_score) _).sublist
      (List.take_sublist 5 _)
  · intro v
    refine ⟨(((sortDescBy (fun a : GatheredArticle => a.relevance_score)
        ((fetchedArticles wiki hn).map enrichArticle)).drop 5).filter
          (fun a => decide (a.relevance_score = v))), ?_⟩
    rw [← List.filter_append, gather_research_data, List.take_append_drop]
    exact (filter_sortDescBy (fun a : GatheredArticle => a.relevance_score) v _).symm

/-! ## Stage 3 processing (`tasks/research_workflow.py`, `execute_processing`) -/

/-- Python `list(set(…))`: the distinct elements.  CPython's set iteration
order is unspecified; first-occurrence order is a deterministic stand-in
(no claim depends on the order). -/
def pySetList (l : List String) : List String := l.eraseDups

structure ProcessResult where
  top_articles : List GatheredArticle
  keywords : List String
  summary : String
  sources : List String
  total_articles_processed : Nat
  top_articles_count : Nat
  deriving DecidableEq

/-- The pure computation of `execute_processing`: top 5 articles, merged
keyword frequencies (dict in first-seen order, stable sort by count
descending, cap 10), overall summary (space-join of the non-empty
per-article summaries, cut at 1000 characters), distinct sources. -/
def processArticles (articles : List GatheredArticle) : ProcessResult :=
  let top_articles := articles.take 5
  let all_keywords := (top_articles.map (fun a => a.keywords)).flatten
  let top_keywords :=
    ((sortDescBy (fun p => p.2) (buildFreq all_keywords)).take 10).map
      (fun p => p.1)
  let all_summaries :=
    (top_articles.map (fun a => a.summary)).filter (fun sm => decide (¬ sm = ""))
  { top_articles := top_articles
    keywords := top_keywords
    summary := pySlice (pyJoin " " all_summaries) 1000
    sources := pySetList (top_articles.map (fun a => a.source))
    total_articles_processed := articles.length
    top_articles_count := top_articles.length }

/-- C8 (amended): on a gathered candidate list (at most 5 items, as the
aggregator guarantees), the processing stage returns keywords drawn from
the merged per-article keyword lists, capped at 10 and sorted by descending
frequency in the merged list, and an overall summary equal to the
*non-empty* per-article summaries joined with single spaces and capped at
1000 characters. -/
theorem processArticles_spec (articles : List GatheredArticle)
    (h5 : articles.length ≤ 5) :
    (processArticles articles).keywords.length ≤ 10 ∧
    (∀ w ∈ (processArticles articles).keywords,
      w ∈ (articles.map (fun a => a.keywords)).flatten) ∧
    List.Pairwise
      (fun a b => (articles.map (fun a => a.keywords)).flatten.count b ≤
        (articles.map (fun a => a.keywords)).flatten.count a)
      (processArticles articles).keywords ∧
    (processArticles articles).summary =
      pySlice (pyJoin " "
        ((articles.map (fun a => a.summary)).filter (fun sm => decide (¬ sm = ""))))
        1000 := by
  have htake : articles.take 5 = articles := List.take_of_length_le h5
  refine ⟨?_, ?_, ?_, ?_⟩
  · rw [processArticles]
    simp only [List.length_map]
    exact List.length_take_le 10 _
  · intro w hw
    rw [processArticles] at hw
    simp only at hw
    obtain ⟨p, hp, hpw⟩ := List.mem_map.mp hw
    have hp2 : p ∈ buildFreq ((articles.take 5).map (fun a => a.keywords)).flatten :=
      (mem_sortDescBy _ p _).mp ((List.take_sublist _ _).mem hp)
    have hkey : p.1 ∈ (buildFreq (((articles.take 5).map
        (fun a => a.keywords)).flatten)).map Prod.fst :=
      List.mem_map_of_mem Prod.fst hp2
    rw [keysOf_buildFreq] at hkey
    rw [← hpw, ← htake]
    exact mem_firstSeen p.1 _ hkey
  · rw [processArticles]
    simp only
    rw [List.pairwise_map]
    have hsorted := pairwise_key_sortDescBy (fun p : String × Nat => p.2)
      (buildFreq (((articles.take 5).map (fun a => a.keywords)).flatten))
    have htakePW := hsorted.sublist (List.take_sublist 10 _)
    refine htakePW.imp_of_mem ?_
    intro p q hp hq hpq
    have hpfl : p ∈ buildFreq (((articles.take 5).map (fun a => a.keywords)).flatten) :=
      (mem_sortDescBy _ p _).mp ((List.take_sublist _ _).mem hp)
    have hqfl : q ∈ buildFreq (((articles.take 5).map (fun a => a.keywords)).flatten) :=
      (mem_sortDescBy _ q _).mp ((List.take_sublist _ _).mem hq)
    have hpc := snd_of_mem_buildFreq p.1 p.2 _ (by rw [Prod.mk.eta]; exact hpfl)
    have hqc := snd_of_mem_buildFreq q.1 q.2 _ (by rw [Prod.mk.eta]; exact hqfl)
    rw [htake] at hpc hqc
    rw [← hpc, ← hqc]
    exact hpq
  · rw [processArticles]
    simp only
    rw [htake]

/-- C8 counterexample: with an article whose summary is empty between two
non-empty ones, the code's summary ("x y") differs from the claim's
concatenation of *all* per-article summaries ("x  y"). -/
theorem processArticles_summary_cex :
    (processArticles
        [{ title := "a1", url := "", summary := "x", content := "", source := "s",
           published_at := none, relevance_score := 1, keywords := [] },
         { title := "a2", url := "", summary := "", content := "", source := "s",
           published_at := none, relevance_score := 1, keywords := [] },
         { title := "a3", url := "", summary := "y", content := "", source := "s",
           published_at := none, relevance_score := 1, keywords := [] }]).summary = "x y" ∧
    pySlice (pyJoin " "
        (([{ title := "a1", url := "", summary := "x", content := "", source := "s",
             published_at := none, relevance_score := 1, keywords := [] },
           { title := "a2", url := "", summary := "", content := "", source := "s",
             published_at := none, relevance_score := 1, keywords := [] },
           { title := "a3", url := "", summary := "y", content := "", source := "s",
             published_at := none, relevance_score := 1, keywords := [] }] :
           List GatheredArticle).map
          (fun a => a.summary))) 1000 = "x  y" ∧
    ¬ ("x y" : String) = "x  y" := by
  exact ⟨by decide, by decide, by decide⟩

/-- C8 witness: the amended statement instantiated at two concrete
articles. -/
theorem processArticles_spec_witness :
    ([{ title := "a1", url := "", summary := "x", content := "", source := "s",
        published_at := none, relevance_score := 1, keywords := ["alpha", "beta"] },
      { title := "a2", url := "", summary := "", content := "", source := "s",
        published_at := none, relevance_score := 1, keywords := ["beta"] }] :
      List GatheredArticle).length ≤ 5 ∧
    (processArticles
      [{ title := "a1", url := "", summary := "x", content := "", source := "s",
         published_at := none, relevance_score := 1, keywords := ["alpha", "beta"] },
       { title := "a2", url := "", summary := "", content := "", source := "s",
         published_at := none, relevance_score := 1, keywords := ["beta"] }]).keywords.length ≤ 10 := by
  refine ⟨by decide, ?_⟩
  exact (processArticles_spec _ (by decide)).1

/-! ## Data model (`models/research.py`)

Timestamps are `Nat` ticks of the DB clock (one tick per store write);
`duration_ms` is a clock difference.  `updated_at` (a storage-engine
`onupdate` hook) is not modelled. -/

inductive ResearchStatus
  | pending
  | processing
  | completed
  | failed
  deriving DecidableEq

inductive WorkflowStep
  | input_parsing
  | data_gathering
  | processing
  | result_persistence
  | return_results
  deriving DecidableEq

structure Step1Result where
  original_topic : String
  cleaned_topic : String
  topic_length : Nat
  validation_passed : Bool
  deriving DecidableEq

structure PersistResult where
  articles_saved : Nat
  keywords : List String
  summary : String
  sources : List String
  total_articles_found : Nat
  deriving DecidableEq

structure ArticleOut where
  id : Nat
  title : String
  url : String
  source : String
  summary : String
  keywords : List String
  relevance_score : Int
  deriving DecidableEq

structure FinalResults where
  topic : String
  summary : String
  top_articles : List ArticleOut
  keywords : List String
  sources : List String
  total_articles_found : Nat
  processing_time_ms : Nat
  completed_at : Nat
  deriving DecidableEq

/-- The structured `details` payloads the workflow writes into log rows. -/
inductive LogDetails
  | step1 (r : Step1Result)
  | step2 (articles_count : Nat) (sources : List String)
  | step3 (keywords_extracted : Nat) (summary_length : Nat) (sources : List String)
  | step4 (r : PersistResult)
  | step5 (processing_time_ms : Nat) (articles_returned : Nat) (keywords_count : Nat)
  deriving DecidableEq

structure ResearchRequest where
  id : Nat
  topic : String
  status : ResearchStatus
  task_id : Option String
  created_at : Nat
  completed_at : Option Nat
  results : Option FinalResults
  error_message : Option String
  deriving DecidableEq

structure WorkflowLog where
  id : Nat
  research_request_id : Nat
  step : WorkflowStep
  status : String
  message : Option String
  details : Option LogDetails
  started_at : Nat
  completed_at : Option Nat
  duration_ms : Option Nat
  deriving DecidableEq

structure ArticleRow where
  id : Nat
  research_request_id : Nat
  title : String
  url : String
  source : String
  content : String
  summary : String
  keywords : List String
  published_at : Option Nat
  extracted_at : Nat
  relevance_score : Int
  deriving DecidableEq

/-- The record store: rows in insertion order plus autoincrement counters
and the clock. -/
structure DB where
  jobs : List ResearchRequest
  logs : List WorkflowLog
  articles : List ArticleRow
  next_log_id : Nat
  next_article_id : Nat
  clock : Nat
  deriving DecidableEq

/-! ## Record store operations (`services/research.py`, `ResearchService`) -/

/-- `ResearchService.update_status`.  `if results:` / `if error_message:`
are Python truthiness tests: `None` is skipped, and so is an empty string
for `error_message` (the workflow's results payload is a non-empty dict, so
`Option` presence models it).  `completed_at` is set exactly on the
transition to `completed`. -/
def applyStatusUpdate (now : Nat) (status : ResearchStatus)
    (results : Option FinalResults) (error_message : Option String)
    (j : ResearchRequest) : ResearchRequest :=
  let j1 := { j with status := status }
  let j2 := match results with
    | some r => { j1 with results := some r }
    | none => j1
  let j3 := match error_message with
    | some m => if m = "" then j2 else { j2 with error_message := some m }
    | none => j2
  if status = ResearchStatus.completed then
    { j3 with completed_at := some now }
  else j3

def update_status (db : DB) (request_id : Nat) (status : ResearchStatus)
    (results : Option FinalResults) (error_message : Option String) : DB :=
  { db with
    jobs := db.jobs.map fun j =>
      if j.id == request_id then
        applyStatusUpdate db.clock status results error_message j
      else j,
    clock := db.clock + 1 }

/-- `ResearchService.create_workflow_log`: insert a row with the next id,
`started_at` = now. -/
def create_workflow_log (db : DB) (request_id : Nat) (step : WorkflowStep)
    (status : String) (message : Option String) (details : Option LogDetails) : DB :=
  { db with
    logs := db.logs ++
      [{ id := db.next_log_id
         research_request_id := request_id
         step := step
         status := status
         message := message
         details := details
         started_at := db.clock
         completed_at := none
         duration_ms := none }]
    next_log_id := db.next_log_id + 1
    clock := db.clock + 1 }

/-- `ResearchService.update_workflow_log`.  `if message:` / `if details:`
are truthiness tests; `completed_at`/`duration_ms` are written only when
the new status is "completed" (`log.started_at` is a datetime, which is
always truthy, so that inner guard always passes). -/
def applyLogUpdate (now : Nat) (status : String) (message : Option String)
    (details : Option LogDetails) (l : WorkflowLog) : WorkflowLog :=
  let l1 := { l with status := status }
  let l2 := match message with
    | some m => if m = "" then l1 else { l1 with message := some m }
    | none => l1
  let l3 := match details with
    | some d => { l2 with details := some d }
    | none => l2
  if status = "completed" then
    { l3 with completed_at := some now
              duration_ms := some (now - l3.started_at) }
  else l3

def update_workflow_log (db : DB) (log_id : Nat) (status : String)
    (message : Option String) (details : Option LogDetails) : DB :=
  { db with
    logs := db.logs.map fun l =>
      if l.id == log_id then applyLogUpdate db.clock status message details l
      else l,
    clock := db.clock + 1 }

/-- `ResearchService.create_article`: insert a row with the next id,
`extracted_at` = now. -/
def create_article (db : DB) (request_id : Nat) (a : GatheredArticle) : DB :=
  { db with
    articles := db.articles ++
      [{ id := db.next_article_id
         research_request_id := request_id
         title := a.title
         url := a.url
         source := a.source
         content := a.content
         summary := a.summary
         keywords := a.keywords
         published_at := a.published_at
         extracted_at := db.clock
         relevance_score := a.relevance_score }]
    next_article_id := db.next_article_id + 1
    clock := db.clock + 1 }

/-- `ResearchService.get_research_request`. -/
def get_research_request (db : DB) (request_id : Nat) : Option ResearchRequest :=
  db.jobs.find? (fun j => j.id == request_id)

structure DetailResponse where
  job : ResearchRequest
  logs : List WorkflowLog
  articles : List ArticleRow
  deriving DecidableEq

/-- `ResearchService.get_research_request_detail`: the row with its
owned log and article rows, or a not-found signal (`none`). -/
def get_research_request_detail (db : DB) (request_id : Nat) :
    Option DetailResponse :=
  (db.jobs.find? (fun j => j.id == request_id)).map fun j =>
    { job := j
      logs := db.logs.filter (fun l => l.research_request_id == request_id)
      articles := db.articles.filter (fun a => a.research_request_id == request_id) }

/-- `ResearchService.get_articles`: the request's articles ordered by
relevance descending then `extracted_at` ascending.  Stored rows are in
insertion (= `extracted_at`) order, so the stable descending sort realises
that ordering. -/
def get_articles (db : DB) (request_id : Nat) (limit : Nat) : List ArticleRow :=
  (sortDescBy (fun a : ArticleRow => a.relevance_score)
    (db.articles.filter (fun a => a.research_request_id == request_id))).take limit

/-- `ResearchService.delete_research_request`: `False` when the id is
unknown; otherwise the row goes away and the ORM cascade
(`cascade="all, delete-orphan"` on `logs` and `articles` in
`models/research.py`) removes the owned rows. -/
def delete_research_request (db : DB) (request_id : Nat) : DB × Bool :=
  match db.jobs.find? (fun j => j.id == request_id) with
  | none => (db, false)
  | some _ =>
    ({ db with
        jobs := db.jobs.filter (fun j => !(j.id == request_id))
        logs := db.logs.filter (fun l => !(l.research_request_id == request_id))
        articles := db.articles.filter (fun a => !(a.research_request_id == request_id))
        clock := db.clock + 1 }, true)

/-- C9: deleting a stored Job removes it together with all of its
StageLogEntries and Articles (the ORM cascade), after which the detail
query for that id signals not-found; deleting an unknown id signals
not-found (`False`) instead of silently succeeding. -/
theorem delete_research_request_spec (db : DB) (request_id : Nat) :
    ((∃ job, get_research_request db request_id = some job) →
      (delete_research_request db request_id).2 = true ∧
      (∀ j ∈ (delete_research_request db request_id).1.jobs, ¬ j.id = request_id) ∧
      (∀ l ∈ (delete_research_request db request_id).1.logs,
        ¬ l.research_request_id = request_id) ∧
      (∀ a ∈ (delete_research_request db request_id).1.articles,
        ¬ a.research_request_id = request_id) ∧
      get_research_request_detail (delete_research_request db request_id).1
        request_id = none) ∧
    (get_research_request db request_id = none →
      (delete_research_request db request_id).2 = false ∧
      (delete_research_request db request_id).1 = db) := by
  constructor
  · rintro ⟨job, hjob⟩
    rw [get_research_request] at hjob
    rw [delete_research_request]
    rw [hjob]
    refine ⟨rfl, ?_, ?_, ?_, ?_⟩
    · intro j hj
      have := List.of_mem_filter hj
      simpa using this
    · intro l hl
      have := List.of_mem_filter hl
      simpa using this
    · intro a ha
      have := List.of_mem_filter ha
      simpa using this
    · rw [get_research_request_detail]
      have hnone : (db.jobs.filter (fun j => !(j.id == request_id))).find?
          (fun j => j.id == request_id) = none := by
        rw [List.find?_eq_none]
        intro j hj
        have := List.of_mem_filter hj
        simpa using this
      simp only
      rw [hnone]
      rfl
  · intro hnone
    rw [get_research_request] at hnone
    rw [delete_research_request, hnone]
    exact ⟨rfl, rfl⟩

theorem applyLogUpdate_fields (now : Nat) (status : String)
    (message : Option String) (details : Option LogDetails) (l : WorkflowLog) :
    (applyLogUpdate now status message details l).id = l.id ∧
    (applyLogUpdate now status message details l).status = status ∧
    (applyLogUpdate now status message details l).started_at = l.started_at ∧
    (¬ status = "completed" →
      (applyLogUpdate now status message details l).completed_at = l.completed_at ∧
      (applyLogUpdate now status message details l).duration_ms = l.duration_ms) ∧
    (status = "completed" →
      (applyLogUpdate now status message details l).completed_at = some now ∧
      (applyLogUpdate now status message details l).duration_ms =
        some (now - l.started_at)) ∧
    (message = none →
      (applyLogUpdate now status message details l).message = l.message) ∧
    (details = none →
      (applyLogUpdate now status message details l).details = l.details) ∧
    (applyLogUpdate now status message details l).step = l.step ∧
    (applyLogUpdate now status message details l).research_request_id =
      l.research_request_id := by
  by_cases hs : status = "completed" <;>
    cases message with
    | none =>
      cases details with
      | none => simp [applyLogUpdate, hs]
      | some d => simp [applyLogUpdate, hs]
    | some m =>
      cases details with
      | none => by_cases hm : m = "" <;> simp [applyLogUpdate, hs, hm]
      | some d => by_cases hm : m = "" <;> simp [applyLogUpdate, hs, hm]

/-- C10: `update_workflow_log` writes `completed_at` and `duration_ms` only
on a "completed" update (so a "failed" update leaves both untouched), and
`message = None` / `details = None` leave the stored message and details
unchanged. -/
theorem update_workflow_log_frame (db : DB) (log_id : Nat) (status : String)
    (message : Option String) (details : Option LogDetails) (log : WorkflowLog)
    (hfind : db.logs.find? (fun l => l.id == log_id) = some log) :
    ∃ log2,
      (update_workflow_log db log_id status message details).logs.find?
        (fun l => l.id == log_id) = some log2 ∧
      log2.status = status ∧
      (¬ status = "completed" →
        log2.completed_at = log.completed_at ∧
        log2.duration_ms = log.duration_ms) ∧
      (status = "completed" →
        log2.completed_at = some db.clock ∧
        log2.duration_ms = some (db.clock - log.started_at)) ∧
      (message = none → log2.message = log.message) ∧
      (details = none → log2.details = log.details) := by
  obtain ⟨hid, hst, _, hnc, hc, hmsg, hdet, _⟩ :=
    applyLogUpdate_fields db.clock status message details log
  refine ⟨applyLogUpdate db.clock status message details log, ?_, hst, hnc, hc,
    hmsg, hdet⟩
  rw [update_workflow_log]
  simp only
  rw [find?_map_ite (fun l => l.id == log_id)
    (applyLogUpdate db.clock status message details) ?hpres db.logs, hfind]
  case hpres =>
    intro a
    obtain ⟨hid2, _⟩ := applyLogUpdate_fields db.clock status message details a
    simp only [hid2]
  rfl

def sampleLog : WorkflowLog :=
  { id := 0, research_request_id := 1, step := WorkflowStep.input_parsing,
    status := "started", message := some "m", details := none,
    started_at := 3, completed_at := none, duration_ms := none }

def sampleLogDB : DB :=
  { jobs := [], logs := [sampleLog], articles := [],
    next_log_id := 1, next_article_id := 0, clock := 7 }

/-- C10 witness: the frame theorem instantiated at a one-log store with a
"failed" update carrying no message and no details. -/
theorem update_workflow_log_frame_witness :
    ∃ log2,
      (update_workflow_log sampleLogDB 0 "failed" none none).logs.find?
        (fun l => l.id == 0) = some log2 ∧
      log2.status = "failed" ∧
      (¬ "failed" = "completed" →
        log2.completed_at = sampleLog.completed_at ∧
        log2.duration_ms = sampleLog.duration_ms) ∧
      ("failed" = "completed" →
        log2.completed_at = some sampleLogDB.clock ∧
        log2.duration_ms = some (sampleLogDB.clock - sampleLog.started_at)) ∧
      ((none : Option String) = none → log2.message = sampleLog.message) ∧
      ((none : Option LogDetails) = none → log2.details = sampleLog.details) :=
  update_workflow_log_frame sampleLogDB 0 "failed" none none sampleLog (by decide)

/-! ## Workflow orchestrator (`tasks/research_workflow.py`)

A run is a function of the initial store, the provider outcomes and an
injected fault.  Besides the store, it threads an event trace recording
every store call the Python code makes (log creation/update, status write,
article insert); the trace is the run's own, starting empty.

The fault component stands for the arbitrary store/runtime exceptions
Python can raise inside a stage's `try` block; it strikes right after the
stage's "started" log entry and carries the exception's `str(e)`.  Every
stage's `except` handler updates that stage's own log entry to "failed"
with a stage-specific prefix and re-raises the original message, exactly as
the source does. -/

inductive DBEvent
  | createLog (request_id : Nat) (step : WorkflowStep) (status : String)
  | updateLog (log_id : Nat) (status : String)
  | setStatus (request_id : Nat) (status : ResearchStatus)
  | createArticle (request_id : Nat)
  deriving DecidableEq

structure WFState where
  db : DB
  trace : List DBEvent
  deriving DecidableEq

def svcCreateLog (s : WFState) (rid : Nat) (step : WorkflowStep)
    (status : String) (message : Option String) (details : Option LogDetails) :
    WFState :=
  { db := create_workflow_log s.db rid step status message details
    trace := s.trace ++ [DBEvent.createLog rid step status] }

def svcUpdateLog (s : WFState) (log_id : Nat) (status : String)
    (message : Option String) (details : Option LogDetails) : WFState :=
  { db := update_workflow_log s.db log_id status message details
    trace := s.trace ++ [DBEvent.updateLog log_id status] }

def svcSetStatus (s : WFState) (rid : Nat) (status : ResearchStatus)
    (results : Option FinalResults) (error_message : Option String) : WFState :=
  { db := update_status s.db rid status results error_message
    trace := s.trace ++ [DBEvent.setStatus rid status] }

def svcCreateArticle (s : WFState) (rid : Nat) (a : GatheredArticle) : WFState :=
  { db := create_article s.db rid a
    trace := s.trace ++ [DBEvent.createArticle rid] }

structure RunConfig where
  wiki : Except String (List RawArticle)
  hn : Except String (List RawArticle)
  fault : Option (WorkflowStep × String)

def faultFor (cfg : RunConfig) (step : WorkflowStep) : Option String :=
  match cfg.fault with
  | some (st, m) => if st = step then some m else none
  | none => none

/-- Step 1: input parsing and validation.  The short-topic check runs on
the trimmed topic, the long-topic check on the raw one, as in the source. -/
def execute_input_parsing (fault : Option String) (s : WFState) (rid : Nat)
    (topic : String) : WFState × Except String Step1Result :=
  let logId := s.db.next_log_id
  let s1 := svcCreateLog s rid WorkflowStep.input_parsing "started"
    (some "Validating and parsing input topic") none
  match fault with
  | some m =>
    (svcUpdateLog s1 logId "failed"
      (some ("Input validation failed: " ++ m)) none, Except.error m)
  | none =>
    if topic = "" ∨ (pyStrip topic).length < 3 then
      (svcUpdateLog s1 logId "failed"
        (some "Input validation failed: Topic must be at least 3 characters long")
        none,
       Except.error "Topic must be at least 3 characters long")
    else if 500 < topic.length then
      (svcUpdateLog s1 logId "failed"
        (some "Input validation failed: Topic must be less than 500 characters")
        none,
       Except.error "Topic must be less than 500 characters")
    else
      let r : Step1Result :=
        { original_topic := topic
          cleaned_topic := pyStrip topic
          topic_length := (pyStrip topic).length
          validation_passed := true }
      (svcUpdateLog s1 logId "completed"
        (some "Input validation completed successfully")
        (some (LogDetails.step1 r)),
       Except.ok r)

/-- Step 2: data gathering (the aggregator call; the topic drives the
provider outcomes, which are part of the run configuration). -/
def execute_data_gathering (fault : Option String) (s : WFState) (rid : Nat)
    (_topic : String) (wiki hn : Except String (List RawArticle)) :
    WFState × Except String (List GatheredArticle) :=
  let logId := s.db.next_log_id
  let s1 := svcCreateLog s rid WorkflowStep.data_gathering "started"
    (some "Fetching articles from external APIs") none
  match fault with
  | some m =>
    (svcUpdateLog s1 logId "failed"
      (some ("Data gathering failed: " ++ m)) none, Except.error m)
  | none =>
    let articles := gather_research_data wiki hn
    (svcUpdateLog s1 logId "completed"
      (some ("Successfully gathered " ++ toString articles.length ++ " articles"))
      (some (LogDetails.step2 articles.length
        (pySetList (articles.map (fun a => a.source))))),
     Except.ok articles)

/-- Step 3: processing. -/
def execute_processing (fault : Option String) (s : WFState) (rid : Nat)
    (articles : List GatheredArticle) : WFState × Except String ProcessResult :=
  let logId := s.db.next_log_id
  let s1 := svcCreateLog s rid WorkflowStep.processing "started"
    (some "Processing articles and extracting insights") none
  match fault with
  | some m =>
    (svcUpdateLog s1 logId "failed"
      (some ("Processing failed: " ++ m)) none, Except.error m)
  | none =>
    let result := processArticles articles
    (svcUpdateLog s1 logId "completed"
      (some ("Processing completed: " ++ toString result.top_articles_count ++
        " articles processed"))
      (some (LogDetails.step3 result.keywords.length result.summary.length
        result.sources)),
     Except.ok result)

def persistResultOf (processed : ProcessResult) : PersistResult :=
  { articles_saved := processed.top_articles.length
    keywords := processed.keywords
    summary := processed.summary
    sources := processed.sources
    total_articles_found := processed.total_articles_processed }

/-- Step 4: result persistence — one article row per top candidate. -/
def execute_result_persistence (fault : Option String) (s : WFState) (rid : Nat)
    (processed : ProcessResult) : WFState × Except String PersistResult :=
  let logId := s.db.next_log_id
  let s1 := svcCreateLog s rid WorkflowStep.result_persistence "started"
    (some "Saving processed results to database") none
  match fault with
  | some m =>
    (svcUpdateLog s1 logId "failed"
      (some ("Result persistence failed: " ++ m)) none, Except.error m)
  | none =>
    let s2 := processed.top_articles.foldl
      (fun st a => svcCreateArticle st rid a) s1
    let result := persistResultOf processed
    (svcUpdateLog s2 logId "completed"
      (some ("Results persisted: " ++ toString processed.top_articles.length ++
        " articles saved"))
      (some (LogDetails.step4 result)),
     Except.ok result)

def articleOut (a : ArticleRow) : ArticleOut :=
  { id := a.id, title := a.title, url := a.url, source := a.source,
    summary := a.summary, keywords := a.keywords,
    relevance_score := a.relevance_score }

/-- Step 5: reload the job with its persisted articles and assemble the
final payload.  A missing job row makes Python dereference `None` — an
`AttributeError` caught by the stage handler like any exception. -/
def execute_return_results (fault : Option String) (s : WFState) (rid : Nat)
    (persisted : PersistResult) (workflow_start : Nat) :
    WFState × Except String FinalResults :=
  let logId := s.db.next_log_id
  let s1 := svcCreateLog s rid WorkflowStep.return_results "started"
    (some "Preparing final structured results") none
  match fault with
  | some m =>
    (svcUpdateLog s1 logId "failed"
      (some ("Return results failed: " ++ m)) none, Except.error m)
  | none =>
    match get_research_request_detail s1.db rid with
    | none =>
      (svcUpdateLog s1 logId "failed"
        (some "Return results failed: NoneType object has no attribute topic")
        none,
       Except.error "NoneType object has no attribute topic")
    | some detail =>
      let processing_time_ms := s1.db.clock - workflow_start
      let articles := get_articles s1.db rid 5
      let final : FinalResults :=
        { topic := detail.job.topic
          summary := persisted.summary
          top_articles := articles.map articleOut
          keywords := persisted.keywords
          sources := persisted.sources
          total_articles_found := persisted.total_articles_found
          processing_time_ms := processing_time_ms
          completed_at := s1.db.clock }
      (svcUpdateLog s1 logId "completed"
        (some "Research workflow completed successfully")
        (some (LogDetails.step5 processing_time_ms articles.length
          persisted.keywords.length)),
       Except.ok final)

/-- The `except` handler of `start_research_workflow`: a failure log entry
is *created* under the `return_results` stage label (whichever stage
failed), then the job goes to `failed` with the exception's message. -/
def failWorkflow (s : WFState) (rid : Nat) (msg : String) : WFState :=
  svcSetStatus
    (svcCreateLog s rid WorkflowStep.return_results "failed"
      (some ("Workflow failed: " ++ msg)) none)
    rid ResearchStatus.failed none (some msg)

def notFoundMsg (rid : Nat) : String :=
  "Research request " ++ toString rid ++ " not found"

/-- The Celery task body: fetch the job, mark it processing, run the five
stages in order, mark completed with the final payload — or, on the first
uncaught exception, run the handler and re-raise. -/
def start_research_workflow (cfg : RunConfig) (request_id : Nat) (db : DB) :
    WFState × Except String FinalResults :=
  let s0 : WFState := { db := db, trace := [] }
  match get_research_request db request_id with
  | none =>
    (failWorkflow s0 request_id (notFoundMsg request_id),
     Except.error (notFoundMsg request_id))
  | some research_request =>
    let s1 := svcSetStatus s0 request_id ResearchStatus.processing none none
    let workflow_start := s1.db.clock
    let r1 := execute_input_parsing (faultFor cfg WorkflowStep.input_parsing)
      s1 request_id research_request.topic
    match r1.2 with
    | Except.error e => (failWorkflow r1.1 request_id e, Except.error e)
    | Except.ok _ =>
      let r2 := execute_data_gathering
        (faultFor cfg WorkflowStep.data_gathering) r1.1 request_id
        research_request.topic cfg.wiki cfg.hn
      match r2.2 with
      | Except.error e => (failWorkflow r2.1 request_id e, Except.error e)
      | Except.ok articles =>
        let r3 := execute_processing (faultFor cfg WorkflowStep.processing)
          r2.1 request_id articles
        match r3.2 with
        | Except.error e => (failWorkflow r3.1 request_id e, Except.error e)
        | Except.ok processed =>
          let r4 := execute_result_persistence
            (faultFor cfg WorkflowStep.result_persistence) r3.1 request_id
            processed
          match r4.2 with
          | Except.error e => (failWorkflow r4.1 request_id e, Except.error e)
          | Except.ok persisted =>
            let r5 := execute_return_results
              (faultFor cfg WorkflowStep.return_results) r4.1 request_id
              persisted workflow_start
            match r5.2 with
            | Except.error e => (failWorkflow r5.1 request_id e, Except.error e)
            | Except.ok final =>
              (svcSetStatus r5.1 request_id ResearchStatus.completed
                (some final) none, Except.ok final)

/-- The steps whose "started" log entry a trace created, in order. -/
def startedSteps (rid : Nat) (tr : List DBEvent) : List WorkflowStep :=
  tr.filterMap fun e =>
    match e with
    | DBEvent.createLog r st status =>
      if r = rid ∧ status = "started" then some st else none
    | _ => none

/-- The statuses a trace wrote onto the job row, in order. -/
def statusWrites (rid : Nat) (tr : List DBEvent) : List ResearchStatus :=
  tr.filterMap fun e =>
    match e with
    | DBEvent.setStatus r st => if r = rid then some st else none
    | _ => none

/-- How many failure log rows a trace *created* (as opposed to updated)
under a given step label. -/
def createdFailedCount (rid : Nat) (step : WorkflowStep) (tr : List DBEvent) :
    Nat :=
  tr.countP fun e =>
    match e with
    | DBEvent.createLog r st status =>
      decide (r = rid ∧ st = step ∧ status = "failed")
    | _ => false

def stepOrder : List WorkflowStep :=
  [WorkflowStep.input_parsing, WorkflowStep.data_gathering,
   WorkflowStep.processing, WorkflowStep.result_persistence,
   WorkflowStep.return_results]

/-! ## Projection lemmas for the instrumented store calls -/

@[simp] theorem svcCreateLog_trace (s : WFState) (rid : Nat) (step : WorkflowStep)
    (status : String) (message : Option String) (details : Option LogDetails) :
    (svcCreateLog s rid step status message details).trace =
      s.trace ++ [DBEvent.createLog rid step status] := rfl

@[simp] theorem svcCreateLog_jobs (s : WFState) (rid : Nat) (step : WorkflowStep)
    (status : String) (message : Option String) (details : Option LogDetails) :
    (svcCreateLog s rid step status message details).db.jobs = s.db.jobs := rfl

@[simp] theorem svcUpdateLog_trace (s : WFState) (log_id : Nat) (status : String)
    (message : Option String) (details : Option LogDetails) :
    (svcUpdateLog s log_id status message details).trace =
      s.trace ++ [DBEvent.updateLog log_id status] := rfl

@[simp] theorem svcUpdateLog_jobs (s : WFState) (log_id : Nat) (status : String)
    (message : Option String) (details : Option LogDetails) :
    (svcUpdateLog s log_id status message details).db.jobs = s.db.jobs := rfl

@[simp] theorem svcSetStatus_trace (s : WFState) (rid : Nat)
    (status : ResearchStatus) (results : Option FinalResults)
    (error_message : Option String) :
    (svcSetStatus s rid status results error_message).trace =
      s.trace ++ [DBEvent.setStatus rid status] := rfl

@[simp] theorem svcCreateArticle_trace (s : WFState) (rid : Nat)
    (a : GatheredArticle) :
    (svcCreateArticle s rid a).trace = s.trace ++ [DBEvent.createArticle rid] := rfl

@[simp] theorem svcCreateArticle_jobs (s : WFState) (rid : Nat)
    (a : GatheredArticle) :
    (svcCreateArticle s rid a).db.jobs = s.db.jobs := rfl

@[simp] theorem svcCreateArticle_logs (s : WFState) (rid : Nat)
    (a : GatheredArticle) :
    (svcCreateArticle s rid a).db.logs = s.db.logs := rfl

@[simp] theorem svcCreateArticle_next_log_id (s : WFState) (rid : Nat)
    (a : GatheredArticle) :
    (svcCreateArticle s rid a).db.next_log_id = s.db.next_log_id := rfl

theorem applyStatusUpdate_fields (now : Nat) (st : ResearchStatus)
    (results : Option FinalResults) (em : Option String) (j : ResearchRequest) :
    (applyStatusUpdate now st results em j).id = j.id ∧
    (applyStatusUpdate now st results em j).topic = j.topic ∧
    (applyStatusUpdate now st results em j).status = st ∧
    (¬ st = ResearchStatus.completed →
      (applyStatusUpdate now st results em j).completed_at = j.completed_at) ∧
    (∀ m, em = some m → ¬ m = "" →
      (applyStatusUpdate now st results em j).error_message = some m) ∧
    (em = none →
      (applyStatusUpdate now st results em j).error_message = j.error_message) ∧
    (∀ r, results = some r →
      (applyStatusUpdate now st results em j).results = some r) := by
  by_cases hs : st = ResearchStatus.completed <;>
    cases results with
    | none =>
      cases em with
      | none => simp [applyStatusUpdate, hs]
      | some m => by_cases hm : m = "" <;> simp [applyStatusUpdate, hs, hm]
    | some r =>
      cases em with
      | none => simp [applyStatusUpdate, hs]
      | some m => by_cases hm : m = "" <;> simp [applyStatusUpdate, hs, hm]

theorem find?_update_status (db : DB) (rid : Nat) (st : ResearchStatus)
    (results : Option FinalResults) (em : Option String) :
    (update_status db rid st results em).jobs.find? (fun j => j.id == rid) =
      (db.jobs.find? (fun j => j.id == rid)).map
        (applyStatusUpdate db.clock st results em) := by
  rw [update_status]
  simp only
  rw [find?_map_ite (fun j => j.id == rid) (applyStatusUpdate db.clock st results em)
    ?hpres db.jobs]
  case hpres =>
    intro a
    obtain ⟨hid, _⟩ := applyStatusUpdate_fields db.clock st results em a
    simp only [hid]

@[simp] theorem svcSetStatus_find? (s : WFState) (rid : Nat)
    (status : ResearchStatus) (results : Option FinalResults)
    (em : Option String) :
    (svcSetStatus s rid status results em).db.jobs.find? (fun j => j.id == rid) =
      (s.db.jobs.find? (fun j => j.id == rid)).map
        (applyStatusUpdate s.db.clock status results em) :=
  find?_update_status s.db rid status results em

theorem failWorkflow_trace (s : WFState) (rid : Nat) (m : String) :
    (failWorkflow s rid m).trace =
      s.trace ++ [DBEvent.createLog rid WorkflowStep.return_results "failed",
        DBEvent.setStatus rid ResearchStatus.failed] := by
  rw [failWorkflow]
  simp

theorem failWorkflow_find? (s : WFState) (rid : Nat) (m : String) :
    ∃ now,
      (failWorkflow s rid m).db.jobs.find? (fun j => j.id == rid) =
        (s.db.jobs.find? (fun j => j.id == rid)).map
          (applyStatusUpdate now ResearchStatus.failed none (some m)) := by
  rw [failWorkflow]
  refine ⟨(svcCreateLog s rid WorkflowStep.return_results "failed"
    (some ("Workflow failed: " ++ m)) none).db.clock, ?_⟩
  rw [svcSetStatus_find?]
  rfl

theorem failWorkflow_logs_mem (s : WFState) (rid : Nat) (m : String)
    (l : WorkflowLog) (hl : l ∈ s.db.logs) : l ∈ (failWorkflow s rid m).db.logs := by
  rw [failWorkflow]
  show l ∈ (svcCreateLog s rid WorkflowStep.return_results "failed"
    (some ("Workflow failed: " ++ m)) none).db.logs
  show l ∈ s.db.logs ++ _
  exact List.mem_append_left _ hl

theorem startedSteps_append (rid : Nat) (a b : List DBEvent) :
    startedSteps rid (a ++ b) = startedSteps rid a ++ startedSteps rid b :=
  List.filterMap_append a b _

theorem statusWrites_append (rid : Nat) (a b : List DBEvent) :
    statusWrites rid (a ++ b) = statusWrites rid a ++ statusWrites rid b :=
  List.filterMap_append a b _

theorem createdFailedCount_append (rid : Nat) (step : WorkflowStep)
    (a b : List DBEvent) :
    createdFailedCount rid step (a ++ b) =
      createdFailedCount rid step a + createdFailedCount rid step b :=
  List.countP_append _ a b

/-- What a single stage contributes, seen from outside: it leaves the job
rows alone and appends a trace tail that starts exactly its own stage,
creates no "failed" row under the `return_results` label, and writes no
job status. -/
def stageTail (rid : Nat) (step : WorkflowStep) (tail : List DBEvent) : Prop :=
  startedSteps rid tail = [step] ∧
  createdFailedCount rid WorkflowStep.return_results tail = 0 ∧
  statusWrites rid tail = []

theorem stageTail_pair (rid logId : Nat) (step : WorkflowStep) (st : String) :
    stageTail rid step
      [DBEvent.createLog rid step "started", DBEvent.updateLog logId st] := by
  refine ⟨?_, ?_, ?_⟩ <;> simp [startedSteps, createdFailedCount, statusWrites]

theorem execute_input_parsing_shape (fault : Option String) (s : WFState)
    (rid : Nat) (topic : String) :
    (execute_input_parsing fault s rid topic).1.db.jobs = s.db.jobs ∧
    ∃ tail, (execute_input_parsing fault s rid topic).1.trace = s.trace ++ tail ∧
      stageTail rid WorkflowStep.input_parsing tail := by
  rw [execute_input_parsing.eq_def]
  cases fault with
  | some m =>
    refine ⟨rfl, [DBEvent.createLog rid WorkflowStep.input_parsing "started",
      DBEvent.updateLog s.db.next_log_id "failed"], ?_, stageTail_pair _ _ _ _⟩
    simp
  | none =>
    split_ifs with h1 h2
    · refine ⟨rfl, [DBEvent.createLog rid WorkflowStep.input_parsing "started",
        DBEvent.updateLog s.db.next_log_id "failed"], ?_, stageTail_pair _ _ _ _⟩
      simp
    · refine ⟨rfl, [DBEvent.createLog rid WorkflowStep.input_parsing "started",
        DBEvent.updateLog s.db.next_log_id "failed"], ?_, stageTail_pair _ _ _ _⟩
      simp
    · refine ⟨rfl, [DBEvent.createLog rid WorkflowStep.input_parsing "started",
        DBEvent.updateLog s.db.next_log_id "completed"], ?_, stageTail_pair _ _ _ _⟩
      simp

theorem execute_data_gathering_shape (fault : Option String) (s : WFState)
    (rid : Nat) (topic : String) (wiki hn : Except String (List RawArticle)) :
    (execute_data_gathering fault s rid topic wiki hn).1.db.jobs = s.db.jobs ∧
    ∃ tail,
      (execute_data_gathering fault s rid topic wiki hn).1.trace = s.trace ++ tail ∧
      stageTail rid WorkflowStep.data_gathering tail := by
  rw [execute_data_gathering.eq_def]
  cases fault with
  | some m =>
    refine ⟨rfl, [DBEvent.createLog rid WorkflowStep.data_gathering "started",
      DBEvent.updateLog s.db.next_log_id "failed"], ?_, stageTail_pair _ _ _ _⟩
    simp
  | none =>
    refine ⟨rfl, [DBEvent.createLog rid WorkflowStep.data_gathering "started",
      DBEvent.updateLog s.db.next_log_id "completed"], ?_, stageTail_pair _ _ _ _⟩
    simp

theorem execute_processing_shape (fault : Option String) (s : WFState)
    (rid : Nat) (articles : List GatheredArticle) :
    (execute_processing fault s rid articles).1.db.jobs = s.db.jobs ∧
    ∃ tail, (execute_processing fault s rid articles).1.trace = s.trace ++ tail ∧
      stageTail rid WorkflowStep.processing tail := by
  rw [execute_processing.eq_def]
  cases fault with
  | some m =>
    refine ⟨rfl, [DBEvent.createLog rid WorkflowStep.processing "started",
      DBEvent.updateLog s.db.next_log_id "failed"], ?_, stageTail_pair _ _ _ _⟩
    simp
  | none =>
    refine ⟨rfl, [DBEvent.createLog rid WorkflowStep.processing "started",
      DBEvent.updateLog s.db.next_log_id "completed"], ?_, stageTail_pair _ _ _ _⟩
    simp

theorem foldl_createArticle_shape (rid : Nat) :
    ∀ (l : List GatheredArticle) (s : WFState),
      (l.foldl (fun st a => svcCreateArticle st rid a) s).db.jobs = s.db.jobs ∧
      (l.foldl (fun st a => svcCreateArticle st rid a) s).db.next_log_id =
        s.db.next_log_id ∧
      ∃ tail,
        (l.foldl (fun st a => svcCreateArticle st rid a) s).trace = s.trace ++ tail ∧
        startedSteps rid tail = [] ∧
        createdFailedCount rid WorkflowStep.return_results tail = 0 ∧
        statusWrites rid tail = [] := by
  intro l
  induction l with
  | nil => intro s; exact ⟨rfl, rfl, [], by simp, rfl, rfl, rfl⟩
  | cons a rest ih =>
    intro s
    rw [List.foldl_cons]
    obtain ⟨hjobs, hnext, tail, htr, hss, hcf, hsw⟩ := ih (svcCreateArticle s rid a)
    refine ⟨by rw [hjobs]; rfl, by rw [hnext]; rfl,
      DBEvent.createArticle rid :: tail, ?_, ?_, ?_, ?_⟩
    · rw [htr]
      simp
    · show startedSteps rid ([DBEvent.createArticle rid] ++ tail) = []
      rw [startedSteps_append, hss]
      simp [startedSteps]
    · show createdFailedCount rid WorkflowStep.return_results
        ([DBEvent.createArticle rid] ++ tail) = 0
      rw [createdFailedCount_append, hcf]
      simp [createdFailedCount]
    · show statusWrites rid ([DBEvent.createArticle rid] ++ tail) = []
      rw [statusWrites_append, hsw]
      simp [statusWrites]

theorem execute_result_persistence_shape (fault : Option String) (s : WFState)
    (rid : Nat) (processed : ProcessResult) :
    (execute_result_persistence fault s rid processed).1.db.jobs = s.db.jobs ∧
    ∃ tail,
      (execute_result_persistence fault s rid processed).1.trace = s.trace ++ tail ∧
      stageTail rid WorkflowStep.result_persistence tail := by
  rw [execute_result_persistence.eq_def]
  cases fault with
  | some m =>
    refine ⟨rfl, [DBEvent.createLog rid WorkflowStep.result_persistence "started",
      DBEvent.updateLog s.db.next_log_id "failed"], ?_, stageTail_pair _ _ _ _⟩
    simp
  | none =>
    obtain ⟨hjobs, hnext, tail, htr, hss, hcf, hsw⟩ :=
      foldl_createArticle_shape rid processed.top_articles
        (svcCreateLog s rid WorkflowStep.result_persistence "started"
          (some "Saving processed results to database") none)
    refine ⟨?_, DBEvent.createLog rid WorkflowStep.result_persistence "started" ::
      (tail ++ [DBEvent.updateLog s.db.next_log_id "completed"]), ?_, ?_, ?_, ?_⟩
    · show (svcUpdateLog _ _ _ _ _).db.jobs = s.db.jobs
      rw [svcUpdateLog_jobs, hjobs]
      rfl
    · show (svcUpdateLog _ _ _ _ _).trace = _
      rw [svcUpdateLog_trace, htr]
      simp
    · show startedSteps rid
        ([DBEvent.createLog rid WorkflowStep.result_persistence "started"] ++
          (tail ++ [DBEvent.updateLog s.db.next_log_id "completed"])) = _
      rw [startedSteps_append, startedSteps_append, hss]
      simp [startedSteps]
    · show createdFailedCount rid WorkflowStep.return_results
        ([DBEvent.createLog rid WorkflowStep.result_persistence "started"] ++
          (tail ++ [DBEvent.updateLog s.db.next_log_id "completed"])) = 0
      rw [createdFailedCount_append, createdFailedCount_append, hcf]
      simp [createdFailedCount]
    · show statusWrites rid
        ([DBEvent.createLog rid WorkflowStep.result_persistence "started"] ++
          (tail ++ [DBEvent.updateLog s.db.next_log_id "completed"])) = []
      rw [statusWrites_append, statusWrites_append, hsw]
      simp [statusWrites]

theorem execute_return_results_shape (fault : Option String) (s : WFState)
    (rid : Nat) (persisted : PersistResult) (workflow_start : Nat) :
    (execute_return_results fault s rid persisted workflow_start).1.db.jobs =
      s.db.jobs ∧
    ∃ tail,
      (execute_return_results fault s rid persisted workflow_start).1.trace =
        s.trace ++ tail ∧
      stageTail rid WorkflowStep.return_results tail := by
  rw [execute_return_results.eq_def]
  cases fault with
  | some m =>
    refine ⟨rfl, [DBEvent.createLog rid WorkflowStep.return_results "started",
      DBEvent.updateLog s.db.next_log_id "failed"], ?_, stageTail_pair _ _ _ _⟩
    simp
  | none =>
    dsimp only
    rcases hdetail : get_research_request_detail
        (svcCreateLog s rid WorkflowStep.return_results "started"
          (some "Preparing final structured results") none).db rid with _ | detail
    · refine ⟨rfl, [DBEvent.createLog rid WorkflowStep.return_results "started",
        DBEvent.updateLog s.db.next_log_id "failed"], ?_, stageTail_pair _ _ _ _⟩
      simp
    · refine ⟨rfl, [DBEvent.createLog rid WorkflowStep.return_results "started",
        DBEvent.updateLog s.db.next_log_id "completed"], ?_, stageTail_pair _ _ _ _⟩
      simp

theorem assemble_fail (rid : Nat) (S : WFState) (m : String) (k : Nat)
    (hk : k ≤ 5) (job j1 : ResearchRequest)
    (hss : startedSteps rid S.trace = stepOrder.take k)
    (hcf : createdFailedCount rid WorkflowStep.return_results S.trace = 0)
    (hsw : statusWrites rid S.trace = [ResearchStatus.processing])
    (hfind : S.db.jobs.find? (fun j => j.id == rid) = some j1)
    (hcomp : j1.completed_at = job.completed_at) :
    (∃ n, n ≤ 5 ∧
      startedSteps rid (failWorkflow S rid m).trace = stepOrder.take n) ∧
    createdFailedCount rid WorkflowStep.return_results
      (failWorkflow S rid m).trace = 1 ∧
    statusWrites rid (failWorkflow S rid m).trace =
      [ResearchStatus.processing, ResearchStatus.failed] ∧
    ∃ job2,
      (failWorkflow S rid m).db.jobs.find? (fun j => j.id == rid) = some job2 ∧
      job2.status = ResearchStatus.failed ∧
      job2.completed_at = job.completed_at ∧
      (¬ m = "" → job2.error_message = some m) := by
  have htr := failWorkflow_trace S rid m
  refine ⟨⟨k, hk, ?_⟩, ?_, ?_, ?_⟩
  · rw [htr, startedSteps_append, hss]
    simp [startedSteps]
  · rw [htr, createdFailedCount_append, hcf]
    simp [createdFailedCount]
  · rw [htr, statusWrites_append, hsw]
    simp [statusWrites]
  · obtain ⟨now, hfw⟩ := failWorkflow_find? S rid m
    rw [hfind] at hfw
    obtain ⟨_, _, hstat, hnc, hem, _, _⟩ := applyStatusUpdate_fields now
      ResearchStatus.failed none (some m) j1
    refine ⟨applyStatusUpdate now ResearchStatus.failed none (some m) j1,
      hfw, hstat, ?_, fun hm => hem m rfl hm⟩
    rw [hnc (by intro h; exact ResearchStatus.noConfusion h), hcomp]

theorem assemble_ok (rid : Nat) (S : WFState) (final : FinalResults)
    (j1 : ResearchRequest)
    (hss : startedSteps rid S.trace = stepOrder)
    (hsw : statusWrites rid S.trace = [ResearchStatus.processing])
    (hfind : S.db.jobs.find? (fun j => j.id == rid) = some j1) :
    (∃ n, n ≤ 5 ∧
      startedSteps rid
        (svcSetStatus S rid ResearchStatus.completed (some final) none).trace =
        stepOrder.take n) ∧
    startedSteps rid
      (svcSetStatus S rid ResearchStatus.completed (some final) none).trace =
      stepOrder ∧
    statusWrites rid
      (svcSetStatus S rid ResearchStatus.completed (some final) none).trace =
      [ResearchStatus.processing, ResearchStatus.completed] ∧
    ∃ job2,
      (svcSetStatus S rid ResearchStatus.completed (some final) none).db.jobs.find?
        (fun j => j.id == rid) = some job2 ∧
      job2.status = ResearchStatus.completed ∧
      job2.results = some final := by
  have hssFull : startedSteps rid
      (svcSetStatus S rid ResearchStatus.completed (some final) none).trace =
      stepOrder := by
    rw [svcSetStatus_trace, startedSteps_append, hss]
    simp [startedSteps]
  refine ⟨⟨5, le_refl 5, ?_⟩, hssFull, ?_, ?_⟩
  · rw [hssFull]
    decide
  · rw [svcSetStatus_trace, statusWrites_append, hsw]
    simp [statusWrites]
  · rw [svcSetStatus_find?, hfind]
    obtain ⟨_, _, hstat, _, _, _, hres⟩ := applyStatusUpdate_fields S.db.clock
      ResearchStatus.completed (some final) none j1
    exact ⟨_, rfl, hstat, hres final rfl⟩

/-- Every run on a stored job: the started stages form a prefix of the
fixed stage order; a failing run creates exactly one "failed" log row under
the `return_results` label, writes statuses processing-then-failed, and
leaves the job failed with the exception's (non-empty) message and its
`completed_at` untouched; a successful run starts all five stages, writes
processing-then-completed, and stores the final payload. -/
theorem run_master (cfg : RunConfig) (rid : Nat) (db : DB)
    (job : ResearchRequest) (hjob : get_research_request db rid = some job) :
    (∃ n, n ≤ 5 ∧
      startedSteps rid (start_research_workflow cfg rid db).1.trace =
        stepOrder.take n) ∧
    (∀ m, (start_research_workflow cfg rid db).2 = Except.error m →
      createdFailedCount rid WorkflowStep.return_results
        (start_research_workflow cfg rid db).1.trace = 1 ∧
      statusWrites rid (start_research_workflow cfg rid db).1.trace =
        [ResearchStatus.processing, ResearchStatus.failed] ∧
      ∃ job2,
        (start_research_workflow cfg rid db).1.db.jobs.find?
          (fun j => j.id == rid) = some job2 ∧
        job2.status = ResearchStatus.failed ∧
        job2.completed_at = job.completed_at ∧
        (¬ m = "" → job2.error_message = some m)) ∧
    (∀ final, (start_research_workflow cfg rid db).2 = Except.ok final →
      startedSteps rid (start_research_workflow cfg rid db).1.trace =
        stepOrder ∧
      statusWrites rid (start_research_workflow cfg rid db).1.trace =
        [ResearchStatus.processing, ResearchStatus.completed] ∧
      ∃ job2,
        (start_research_workflow cfg rid db).1.db.jobs.find?
          (fun j => j.id == rid) = some job2 ∧
        job2.status = ResearchStatus.completed ∧
        job2.results = some final) := by
  rw [start_research_workflow.eq_def, hjob]
  dsimp only
  rw [get_research_request] at hjob
  set s1 : WFState :=
    svcSetStatus { db := db, trace := [] } rid ResearchStatus.processing none none
    with hs1
  have hfind1 : s1.db.jobs.find? (fun j => j.id == rid) =
      some (applyStatusUpdate db.clock ResearchStatus.processing none none job) := by
    rw [hs1, svcSetStatus_find?]
    show (db.jobs.find? (fun j => j.id == rid)).map _ = _
    rw [hjob]
    rfl
  have hcomp1 : (applyStatusUpdate db.clock ResearchStatus.processing none none
      job).completed_at = job.completed_at :=
    (applyStatusUpdate_fields db.clock ResearchStatus.processing none none
      job).2.2.2.1 (by intro h; exact ResearchStatus.noConfusion h)
  have hsstr : s1.trace = [DBEvent.setStatus rid ResearchStatus.processing] := by
    rw [hs1]
    rfl
  set r1 := execute_input_parsing (faultFor cfg WorkflowStep.input_parsing) s1
    rid job.topic with hr1
  obtain ⟨hj1, t1, htr1, hst1⟩ := execute_input_parsing_shape
    (faultFor cfg WorkflowStep.input_parsing) s1 rid job.topic
  rw [← hr1] at hj1 htr1
  rcases hv1 : r1.2 with e | step1 <;> dsimp only
  · have hss : startedSteps rid r1.1.trace = stepOrder.take 1 := by
      rw [htr1, startedSteps_append, hsstr, hst1.1]
      simp [startedSteps, stepOrder]
    have hcf : createdFailedCount rid WorkflowStep.return_results r1.1.trace = 0 := by
      rw [htr1, createdFailedCount_append, hsstr, hst1.2.1]
      simp [createdFailedCount]
    have hsw : statusWrites rid r1.1.trace = [ResearchStatus.processing] := by
      rw [htr1, statusWrites_append, hsstr, hst1.2.2]
      simp [statusWrites]
    obtain ⟨c1, c2, c3, c4⟩ := assemble_fail rid r1.1 e 1 (by omega) job _
      hss hcf hsw (by rw [hj1]; exact hfind1) hcomp1
    refine ⟨c1, fun m hm => ?_, fun final hfin => Except.noConfusion hfin⟩
    injection hm with hm
    subst hm
    exact ⟨c2, c3, c4⟩
  · set r2 := execute_data_gathering (faultFor cfg WorkflowStep.data_gathering)
      r1.1 rid job.topic cfg.wiki cfg.hn with hr2
    obtain ⟨hj2, t2, htr2, hst2⟩ := execute_data_gathering_shape
      (faultFor cfg WorkflowStep.data_gathering) r1.1 rid job.topic cfg.wiki cfg.hn
    rw [← hr2] at hj2 htr2
    rcases hv2 : r2.2 with e | articles <;> dsimp only
    · have hss : startedSteps rid r2.1.trace = stepOrder.take 2 := by
        rw [htr2, startedSteps_append, htr1, startedSteps_append, hsstr,
          hst1.1, hst2.1]
        simp [startedSteps, stepOrder]
      have hcf : createdFailedCount rid WorkflowStep.return_results r2.1.trace = 0 := by
        rw [htr2, createdFailedCount_append, htr1, createdFailedCount_append,
          hsstr, hst1.2.1, hst2.2.1]
        simp [createdFailedCount]
      have hsw : statusWrites rid r2.1.trace = [ResearchStatus.processing] := by
        rw [htr2, statusWrites_append, htr1, statusWrites_append, hsstr,
          hst1.2.2, hst2.2.2]
        simp [statusWrites]
      obtain ⟨c1, c2, c3, c4⟩ := assemble_fail rid r2.1 e 2 (by omega) job _
        hss hcf hsw (by rw [hj2, hj1]; exact hfind1) hcomp1
      refine ⟨c1, fun m hm => ?_, fun final hfin => Except.noConfusion hfin⟩
      injection hm with hm
      subst hm
      exact ⟨c2, c3, c4⟩
    · set r3 := execute_processing (faultFor cfg WorkflowStep.processing)
        r2.1 rid articles with hr3
      obtain ⟨hj3, t3, htr3, hst3⟩ := execute_processing_shape
        (faultFor cfg WorkflowStep.processing) r2.1 rid articles
      rw [← hr3] at hj3 htr3
      rcases hv3 : r3.2 with e | processed <;> dsimp only
      · have hss : startedSteps rid r3.1.trace = stepOrder.take 3 := by
          rw [htr3, startedSteps_append, htr2, startedSteps_append, htr1,
            startedSteps_append, hsstr, hst1.1, hst2.1, hst3.1]
          simp [startedSteps, stepOrder]
        have hcf : createdFailedCount rid WorkflowStep.return_results
            r3.1.trace = 0 := by
          rw [htr3, createdFailedCount_append, htr2, createdFailedCount_append,
            htr1, createdFailedCount_append, hsstr, hst1.2.1, hst2.2.1, hst3.2.1]
          simp [createdFailedCount]
        have hsw : statusWrites rid r3.1.trace = [ResearchStatus.processing] := by
          rw [htr3, statusWrites_append, htr2, statusWrites_append, htr1,
            statusWrites_append, hsstr, hst1.2.2, hst2.2.2, hst3.2.2]
          simp [statusWrites]
        obtain ⟨c1, c2, c3, c4⟩ := assemble_fail rid r3.1 e 3 (by omega) job _
          hss hcf hsw (by rw [hj3, hj2, hj1]; exact hfind1) hcomp1
        refine ⟨c1, fun m hm => ?_, fun final hfin => Except.noConfusion hfin⟩
        injection hm with hm
        subst hm
        exact ⟨c2, c3, c4⟩
      · set r4 := execute_result_persistence
          (faultFor cfg WorkflowStep.result_persistence) r3.1 rid processed
          with hr4
        obtain ⟨hj4, t4, htr4, hst4⟩ := execute_result_persistence_shape
          (faultFor cfg WorkflowStep.result_persistence) r3.1 rid processed
        rw [← hr4] at hj4 htr4
        rcases hv4 : r4.2 with e | persisted <;> dsimp only
        · have hss : startedSteps rid r4.1.trace = stepOrder.take 4 := by
            rw [htr4, startedSteps_append, htr3, startedSteps_append, htr2,
              startedSteps_append, htr1, startedSteps_append, hsstr,
              hst1.1, hst2.1, hst3.1, hst4.1]
            simp [startedSteps, stepOrder]
          have hcf : createdFailedCount rid WorkflowStep.return_results
              r4.1.trace = 0 := by
            rw [htr4, createdFailedCount_append, htr3, createdFailedCount_append,
              htr2, createdFailedCount_append, htr1, createdFailedCount_append,
              hsstr, hst1.2.1, hst2.2.1, hst3.2.1, hst4.2.1]
            simp [createdFailedCount]
          have hsw : statusWrites rid r4.1.trace = [ResearchStatus.processing] := by
            rw [htr4, statusWrites_append, htr3, statusWrites_append, htr2,
              statusWrites_append, htr1, statusWrites_append, hsstr,
              hst1.2.2, hst2.2.2, hst3.2.2, hst4.2.2]
            simp [statusWrites]
          obtain ⟨c1, c2, c3, c4⟩ := assemble_fail rid r4.1 e 4 (by omega) job _
            hss hcf hsw (by rw [hj4, hj3, hj2, hj1]; exact hfind1) hcomp1
          refine ⟨c1, fun m hm => ?_, fun final hfin => Except.noConfusion hfin⟩
          injection hm with hm
          subst hm
          exact ⟨c2, c3, c4⟩
        · set r5 := execute_return_results
            (faultFor cfg WorkflowStep.return_results) r4.1 rid persisted
            s1.db.clock with hr5
          obtain ⟨hj5, t5, htr5, hst5⟩ := execute_return_results_shape
            (faultFor cfg WorkflowStep.return_results) r4.1 rid persisted
            s1.db.clock
          rw [← hr5] at hj5 htr5
          rcases hv5 : r5.2 with e | final0 <;> dsimp only
          · have hss : startedSteps rid r5.1.trace = stepOrder.take 5 := by
              rw [htr5, startedSteps_append, htr4, startedSteps_append, htr3,
                startedSteps_append, htr2, startedSteps_append, htr1,
                startedSteps_append, hsstr, hst1.1, hst2.1, hst3.1, hst4.1,
                hst5.1]
              simp [startedSteps, stepOrder]
            have hcf : createdFailedCount rid WorkflowStep.return_results
                r5.1.trace = 0 := by
              rw [htr5, createdFailedCount_append, htr4,
                createdFailedCount_append, htr3, createdFailedCount_append,
                htr2, createdFailedCount_append, htr1, createdFailedCount_append,
                hsstr, hst1.2.1, hst2.2.1, hst3.2.1, hst4.2.1, hst5.2.1]
              simp [createdFailedCount]
            have hsw : statusWrites rid r5.1.trace = [ResearchStatus.processing] := by
              rw [htr5, statusWrites_append, htr4, statusWrites_append, htr3,
                statusWrites_append, htr2, statusWrites_append, htr1,
                statusWrites_append, hsstr, hst1.2.2, hst2.2.2, hst3.2.2,
                hst4.2.2, hst5.2.2]
              simp [statusWrites]
            obtain ⟨c1, c2, c3, c4⟩ := assemble_fail rid r5.1 e 5 (by omega) job _
              hss hcf hsw (by rw [hj5, hj4, hj3, hj2, hj1]; exact hfind1) hcomp1
            refine ⟨c1, fun m hm => ?_, fun final hfin => Except.noConfusion hfin⟩
            injection hm with hm
            subst hm
            exact ⟨c2, c3, c4⟩
          · have hss : startedSteps rid r5.1.trace = stepOrder := by
              rw [htr5, startedSteps_append, htr4, startedSteps_append, htr3,
                startedSteps_append, htr2, startedSteps_append, htr1,
                startedSteps_append, hsstr, hst1.1, hst2.1, hst3.1, hst4.1,
                hst5.1]
              simp [startedSteps, stepOrder]
            have hsw : statusWrites rid r5.1.trace = [ResearchStatus.processing] := by
              rw [htr5, statusWrites_append, htr4, statusWrites_append, htr3,
                statusWrites_append, htr2, statusWrites_append, htr1,
                statusWrites_append, hsstr, hst1.2.2, hst2.2.2, hst3.2.2,
                hst4.2.2, hst5.2.2]
              simp [statusWrites]
            obtain ⟨c1, c0, c2, c3⟩ := assemble_ok rid r5.1 final0 _
              hss hsw (by rw [hj5, hj4, hj3, hj2, hj1]; exact hfind1)
            refine ⟨c1, fun m hm => Except.noConfusion hm, fun final hfin => ?_⟩
            injection hfin with hfin
            subst hfin
            exact ⟨c0, c2, c3⟩

def wfJob : ResearchRequest :=
  { id := 1, topic := "quantum computing", status := ResearchStatus.pending,
    task_id := none, created_at := 0, completed_at := none, results := none,
    error_message := none }

def wfDB : DB :=
  { jobs := [wfJob], logs := [], articles := [], next_log_id := 0,
    next_article_id := 0, clock := 1 }

def wfFailCfg : RunConfig :=
  { wiki := Except.ok [], hn := Except.ok [],
    fault := some (WorkflowStep.data_gathering, "boom") }

def wfEmptyMsgCfg : RunConfig :=
  { wiki := Except.ok [], hn := Except.ok [],
    fault := some (WorkflowStep.data_gathering, "") }

/-- C2 counterexample: an exception whose `str(e)` is empty fails the run,
but `if error_message:` in `update_status` is false for the empty string,
so the job's `error_message` stays `None` instead of being set to the
exception's message. -/
theorem workflow_failure_empty_message_cex :
    (start_research_workflow wfEmptyMsgCfg 1 wfDB).2 = Except.error "" ∧
    ((start_research_workflow wfEmptyMsgCfg 1 wfDB).1.db.jobs.find?
      (fun j => j.id == 1)).map (fun j => j.error_message) = some none := by
  exact ⟨rfl, rfl⟩

def statusRank : ResearchStatus → Nat
  | ResearchStatus.pending => 0
  | ResearchStatus.processing => 1
  | ResearchStatus.completed => 2
  | ResearchStatus.failed => 2

/-- C3: starting from a pending job, a run writes exactly the status
sequence processing-then-terminal, so the job's full status history
`pending :: writes` is strictly monotonic under the rank
pending < processing < {completed, failed}; a terminal status is written
last and never left. -/
theorem status_monotonic (cfg : RunConfig) (rid : Nat) (db : DB)
    (job : ResearchRequest) (hjob : get_research_request db rid = some job)
    (hpending : job.status = ResearchStatus.pending) :
    ∃ t, (t = ResearchStatus.completed ∨ t = ResearchStatus.failed) ∧
      statusWrites rid (start_research_workflow cfg rid db).1.trace =
        [ResearchStatus.processing, t] ∧
      List.Chain' (fun a b => statusRank a < statusRank b)
        (job.status ::
          statusWrites rid (start_research_workflow cfg rid db).1.trace) := by
  obtain ⟨_, h2, h3⟩ := run_master cfg rid db job hjob
  rcases hres : (start_research_workflow cfg rid db).2 with m | final
  · obtain ⟨_, c2, _⟩ := h2 m hres
    refine ⟨ResearchStatus.failed, Or.inr rfl, c2, ?_⟩
    rw [hpending, c2]
    refine List.chain'_cons.mpr ⟨by decide, List.chain'_cons.mpr ⟨by decide, ?_⟩⟩
    exact List.chain'_singleton _
  · obtain ⟨_, c2, _⟩ := h3 final hres
    refine ⟨ResearchStatus.completed, Or.inl rfl, c2, ?_⟩
    rw [hpending, c2]
    refine List.chain'_cons.mpr ⟨by decide, List.chain'_cons.mpr ⟨by decide, ?_⟩⟩
    exact List.chain'_singleton _

def wfOkCfg : RunConfig :=
  { wiki := Except.ok [], hn := Except.ok [], fault := none }

/-- C3 witness: a fault-free run over the one-job store. -/
theorem status_monotonic_witness :
    ∃ t, (t = ResearchStatus.completed ∨ t = ResearchStatus.failed) ∧
      statusWrites 1 (start_research_workflow wfOkCfg 1 wfDB).1.trace =
        [ResearchStatus.processing, t] ∧
      List.Chain' (fun a b => statusRank a < statusRank b)
        (wfJob.status ::
          statusWrites 1 (start_research_workflow wfOkCfg 1 wfDB).1.trace) :=
  status_monotonic wfOkCfg 1 wfDB wfJob rfl rfl

def t501 : String := String.mk ('a' :: 'b' :: 'c' :: List.replicate 498 ' ')

set_option maxRecDepth 4000 in
/-- C1 counterexample: a topic of 3 trimmed characters padded to a raw
length of 501.  Its trimmed length lies in [3, 500], yet stage 1 raises the
long-topic validation error, because the source checks `len(topic) > 500`
on the *raw* topic. -/
theorem input_parsing_rawlength_cex :
    3 ≤ (pyStrip t501).length ∧ (pyStrip t501).length ≤ 500 ∧
    (execute_input_parsing none { db := wfDB, trace := [] } 1 t501).2 =
      Except.error "Topic must be less than 500 characters" := by
  refine ⟨by decide, by decide, ?_⟩
  rfl

/-- C1 (amended): with no external fault, stage 1 succeeds with
`cleaned_topic = trim(topic)` whenever the trimmed topic has at least 3
characters and the *raw* topic at most 500 (the upper bound is checked on
the raw topic, not the trimmed one); and whenever the trimmed topic is
shorter than 3 characters, stage 1 raises the validation error, its own
log entry is updated to "failed", and the whole run leaves the job in
status failed. -/
theorem input_parsing_validation (topic : String) :
    (∀ (s : WFState) (rid : Nat),
      3 ≤ (pyStrip topic).length → topic.length ≤ 500 →
      ∃ r, (execute_input_parsing none s rid topic).2 = Except.ok r ∧
        r.cleaned_topic = pyStrip topic) ∧
    ((pyStrip topic).length < 3 →
      ∀ (cfg : RunConfig) (rid : Nat) (db : DB) (job : ResearchRequest),
        cfg.fault = none →
        get_research_request db rid = some job → job.topic = topic →
        (start_research_workflow cfg rid db).2 =
          Except.error "Topic must be at least 3 characters long" ∧
        (∃ l ∈ (start_research_workflow cfg rid db).1.db.logs,
          l.id = db.next_log_id ∧ l.step = WorkflowStep.input_parsing ∧
          l.status = "failed") ∧
        ∃ job2,
          (start_research_workflow cfg rid db).1.db.jobs.find?
            (fun j => j.id == rid) = some job2 ∧
          job2.status = ResearchStatus.failed) := by
  constructor
  · intro s rid h3 h500
    rw [execute_input_parsing.eq_def]
    dsimp only
    rw [if_neg ?hshort, if_neg ?hlong]
    · exact ⟨_, rfl, rfl⟩
    case hshort =>
      rintro (hempty | hlt)
      · rw [hempty] at h3
        exact absurd h3 (by decide)
      · omega
    case hlong => omega
  · intro hshort cfg rid db job hfault hjob htopic
    have hff : ∀ st, faultFor cfg st = none := by
      intro st
      rw [faultFor, hfault]
    have hcond : job.topic = "" ∨ (pyStrip job.topic).length < 3 :=
      Or.inr (htopic ▸ hshort)
    have hval : ∀ s : WFState,
        execute_input_parsing none s rid job.topic =
          (svcUpdateLog
            (svcCreateLog s rid WorkflowStep.input_parsing "started"
              (some "Validating and parsing input topic") none)
            s.db.next_log_id "failed"
            (some "Input validation failed: Topic must be at least 3 characters long")
            none,
           Except.error "Topic must be at least 3 characters long") := by
      intro s
      rw [execute_input_parsing.eq_def]
      dsimp only
      rw [if_pos hcond]
    rw [start_research_workflow.eq_def, hjob]
    dsimp only
    rw [hff, hval]
    dsimp only
    refine ⟨rfl, ?_, ?_⟩
    · set s1 : WFState := svcSetStatus { db := db, trace := [] } rid
        ResearchStatus.processing none none with hs1
      set row : WorkflowLog :=
        { id := s1.db.next_log_id, research_request_id := rid,
          step := WorkflowStep.input_parsing, status := "started",
          message := some "Validating and parsing input topic", details := none,
          started_at := s1.db.clock, completed_at := none,
          duration_ms := none } with hrow
      have hmem0 : row ∈ (svcCreateLog s1 rid WorkflowStep.input_parsing
          "started" (some "Validating and parsing input topic") none).db.logs := by
        show row ∈ s1.db.logs ++ [row]
        exact List.mem_append_right _ (List.mem_singleton.mpr rfl)
      have hmem1 : applyLogUpdate
          (svcCreateLog s1 rid WorkflowStep.input_parsing "started"
            (some "Validating and parsing input topic") none).db.clock
          "failed"
          (some "Input validation failed: Topic must be at least 3 characters long")
          none row ∈
          (svcUpdateLog
            (svcCreateLog s1 rid WorkflowStep.input_parsing "started"
              (some "Validating and parsing input topic") none)
            s1.db.next_log_id "failed"
            (some "Input validation failed: Topic must be at least 3 characters long")
            none).db.logs := by
        show _ ∈ ((svcCreateLog s1 rid WorkflowStep.input_parsing "started"
          (some "Validating and parsing input topic") none).db.logs.map _)
        refine List.mem_map.mpr ⟨row, hmem0, ?_⟩
        have hid : (row.id == s1.db.next_log_id) = true := by
          simp [hrow]
        rw [if_pos hid]
      obtain ⟨hid2, hst2, _, _, _, _, _, hstep2, _⟩ := applyLogUpdate_fields
        (svcCreateLog s1 rid WorkflowStep.input_parsing "started"
          (some "Validating and parsing input topic") none).db.clock
        "failed"
        (some "Input validation failed: Topic must be at least 3 characters long")
        none row
      refine ⟨_, failWorkflow_logs_mem _ rid _ _ hmem1, ?_, ?_, hst2⟩
      · exact hid2.trans rfl
      · exact hstep2.trans rfl
    · have hjob2 : get_research_request db rid = some job := hjob
      rw [get_research_request] at hjob2
      obtain ⟨now, hfw⟩ := failWorkflow_find?
        (svcUpdateLog
          (svcCreateLog (svcSetStatus { db := db, trace := [] } rid
            ResearchStatus.processing none none) rid WorkflowStep.input_parsing
            "started" (some "Validating and parsing input topic") none)
          (svcSetStatus { db := db, trace := [] } rid
            ResearchStatus.processing none none).db.next_log_id "failed"
          (some "Input validation failed: Topic must be at least 3 characters long")
          none)
        rid "Topic must be at least 3 characters long"
      rw [svcUpdateLog_jobs, svcCreateLog_jobs, svcSetStatus_find?] at hfw
      show ∃ job2, (failWorkflow _ rid _).db.jobs.find? (fun j => j.id == rid) =
        some job2 ∧ job2.status = ResearchStatus.failed
      rw [hfw]
      have hbase : (({ db := db, trace := [] } : WFState).db.jobs.find?
          (fun j => j.id == rid)) = some job := hjob2
      rw [hbase]
      refine ⟨_, rfl, ?_⟩
      exact (applyStatusUpdate_fields now ResearchStatus.failed none
        (some "Topic must be at least 3 characters long") _).2.2.1

/-- A provider call that failed or found nothing. -/
def providerEmpty (p : Except String (List RawArticle)) : Prop :=
  (∃ e, p = Except.error e) ∨ p = Except.ok []

theorem gather_research_data_empty (wiki hn : Except String (List RawArticle))
    (hw : providerEmpty wiki) (hh : providerEmpty hn) :
    gather_research_data wiki hn = [] := by
  rcases hw with ⟨e, he⟩ | he <;> rcases hh with ⟨e2, he2⟩ | he2 <;>
    rw [he, he2] <;> rfl

theorem execute_input_parsing_ok (s : WFState) (rid : Nat) (topic : String)
    (h3 : 3 ≤ (pyStrip topic).length) (h500 : topic.length ≤ 500) :
    (execute_input_parsing none s rid topic).2 =
      Except.ok { original_topic := topic, cleaned_topic := pyStrip topic,
                  topic_length := (pyStrip topic).length,
                  validation_passed := true } := by
  rw [execute_input_parsing.eq_def]
  dsimp only
  rw [if_neg ?hshort, if_neg ?hlong]
  case hshort =>
    rintro (he | hl)
    · rw [he] at h3
      exact absurd h3 (by decide)
    · omega
  case hlong => omega

theorem execute_data_gathering_ok (s : WFState) (rid : Nat) (topic : String)
    (wiki hn : Except String (List RawArticle)) :
    (execute_data_gathering none s rid topic wiki hn).2 =
      Except.ok (gather_research_data wiki hn) := rfl

theorem execute_processing_ok (s : WFState) (rid : Nat)
    (articles : List GatheredArticle) :
    (execute_processing none s rid articles).2 =
      Except.ok (processArticles articles) := rfl

theorem execute_result_persistence_ok (s : WFState) (rid : Nat)
    (processed : ProcessResult) :
    (execute_result_persistence none s rid processed).2 =
      Except.ok (persistResultOf processed) := rfl

theorem execute_return_results_ok (s : WFState) (rid : Nat)
    (persisted : PersistResult) (t0 : Nat) (j : ResearchRequest)
    (hfind : s.db.jobs.find? (fun x => x.id == rid) = some j) :
    ∃ final,
      (execute_return_results none s rid persisted t0).2 = Except.ok final ∧
      final.total_articles_found = persisted.total_articles_found := by
  rw [execute_return_results.eq_def]
  dsimp only
  have hdet : get_research_request_detail
      (svcCreateLog s rid WorkflowStep.return_results "started"
        (some "Preparing final structured results") none).db rid =
      some { job := j
             logs := (svcCreateLog s rid WorkflowStep.return_results "started"
               (some "Preparing final structured results") none).db.logs.filter
               (fun l => l.research_request_id == rid)
             articles := (svcCreateLog s rid WorkflowStep.return_results
               "started" (some "Preparing final structured results")
               none).db.articles.filter
               (fun a => a.research_request_id == rid) } := by
    rw [get_research_request_detail]
    show ((svcCreateLog s rid WorkflowStep.return_results "started"
      (some "Preparing final structured results") none).db.jobs.find?
      (fun x => x.id == rid)).map _ = _
    rw [svcCreateLog_jobs, hfind]
    rfl
  rw [hdet]
  exact ⟨_, rfl, rfl⟩

/-- C4: when every provider fails or returns nothing, the aggregator
returns `[]` without raising, and a fault-free run on a valid topic still
starts all five stages and completes with `total_articles_found = 0` in
the final payload. -/
theorem workflow_empty_providers (cfg : RunConfig) (rid : Nat) (db : DB)
    (job : ResearchRequest)
    (hjob : get_research_request db rid = some job)
    (hfault : cfg.fault = none)
    (hw : providerEmpty cfg.wiki) (hh : providerEmpty cfg.hn)
    (h3 : 3 ≤ (pyStrip job.topic).length) (h500 : job.topic.length ≤ 500) :
    gather_research_data cfg.wiki cfg.hn = [] ∧
    ∃ final,
      (start_research_workflow cfg rid db).2 = Except.ok final ∧
      final.total_articles_found = 0 ∧
      startedSteps rid (start_research_workflow cfg rid db).1.trace =
        stepOrder ∧
      statusWrites rid (start_research_workflow cfg rid db).1.trace =
        [ResearchStatus.processing, ResearchStatus.completed] ∧
      ∃ job2,
        (start_research_workflow cfg rid db).1.db.jobs.find?
          (fun j => j.id == rid) = some job2 ∧
        job2.status = ResearchStatus.completed ∧
        job2.results = some final := by
  have hgather := gather_research_data_empty cfg.wiki cfg.hn hw hh
  have hff : ∀ st, faultFor cfg st = none := by
    intro st
    rw [faultFor, hfault]
  have hok : ∃ final,
      (start_research_workflow cfg rid db).2 = Except.ok final ∧
      final.total_articles_found = 0 := by
    rw [start_research_workflow.eq_def, hjob]
    dsimp only
    simp only [hff]
    set s1 : WFState := svcSetStatus { db := db, trace := [] } rid
      ResearchStatus.processing none none with hs1
    rw [execute_input_parsing_ok s1 rid job.topic h3 h500]
    dsimp only
    set r1 := execute_input_parsing none s1 rid job.topic with hr1
    rw [execute_data_gathering_ok r1.1 rid job.topic cfg.wiki cfg.hn, hgather]
    dsimp only
    set r2 := execute_data_gathering none r1.1 rid job.topic cfg.wiki cfg.hn
      with hr2
    rw [execute_processing_ok r2.1 rid []]
    dsimp only
    set r3 := execute_processing none r2.1 rid [] with hr3
    rw [execute_result_persistence_ok r3.1 rid (processArticles [])]
    dsimp only
    set r4 := execute_result_persistence none r3.1 rid (processArticles [])
      with hr4
    have hfind4 : r4.1.db.jobs.find? (fun x => x.id == rid) =
        some (applyStatusUpdate db.clock ResearchStatus.processing none none job) := by
      have hj4 := (execute_result_persistence_shape none r3.1 rid
        (processArticles [])).1
      have hj3 := (execute_processing_shape none r2.1 rid []).1
      have hj2 := (execute_data_gathering_shape none r1.1 rid job.topic
        cfg.wiki cfg.hn).1
      have hj1 := (execute_input_parsing_shape none s1 rid job.topic).1
      rw [← hr4] at hj4
      rw [← hr3] at hj3
      rw [← hr2] at hj2
      rw [← hr1] at hj1
      rw [hj4, hj3, hj2, hj1, hs1, svcSetStatus_find?]
      rw [get_research_request] at hjob
      show (db.jobs.find? (fun j => j.id == rid)).map _ = _
      rw [hjob]
      rfl
    obtain ⟨final, hfin5, htot⟩ := execute_return_results_ok r4.1 rid
      (persistResultOf (processArticles [])) s1.db.clock _ hfind4
    rw [hfin5]
    dsimp only
    refine ⟨final, rfl, ?_⟩
    rw [htot]
    rfl
  obtain ⟨final, hfin, htot⟩ := hok
  obtain ⟨_, _, h3branch⟩ := run_master cfg rid db job hjob
  obtain ⟨c1, c2, c3⟩ := h3branch final hfin
  exact ⟨hgather, final, hfin, htot, c1, c2, c3⟩

/-- C4 witness: a fault-free run over the one-job store with both
providers returning nothing. -/
theorem workflow_empty_providers_witness :
    gather_research_data wfOkCfg.wiki wfOkCfg.hn = [] ∧
    ∃ final,
      (start_research_workflow wfOkCfg 1 wfDB).2 = Except.ok final ∧
      final.total_articles_found = 0 ∧
      startedSteps 1 (start_research_workflow wfOkCfg 1 wfDB).1.trace =
        stepOrder ∧
      statusWrites 1 (start_research_workflow wfOkCfg 1 wfDB).1.trace =
        [ResearchStatus.processing, ResearchStatus.completed] ∧
      ∃ job2,
        (start_research_workflow wfOkCfg 1 wfDB).1.db.jobs.find?
          (fun j => j.id == 1) = some job2 ∧
        job2.status = ResearchStatus.completed ∧
        job2.results = some final :=
  workflow_empty_providers wfOkCfg 1 wfDB wfJob rfl rfl (Or.inr rfl) (Or.inr rfl)
    (by decide) (by decide)

/-! ## "No subsequent stage runs"

A stage failure is visible in the trace as that stage's own log entry
being updated to "failed" (every stage's `except` handler does exactly
that before re-raising).  "No subsequent stage runs" then says: after the
first such failure event, no further stage's "started" log entry is ever
created. -/

def isFailedUpdate : DBEvent → Bool
  | DBEvent.updateLog _ status => status == "failed"
  | _ => false

def isStartedCreate : DBEvent → Bool
  | DBEvent.createLog _ _ status => status == "started"
  | _ => false

/-- Once some stage's log entry has been updated to "failed", no further
stage's "started" log entry is created. -/
def noStartAfterFailure (tr : List DBEvent) : Prop :=
  ((tr.dropWhile fun e => !(isFailedUpdate e)).any isStartedCreate) = false

theorem dropWhile_append_of_all {α : Type} (p : α → Bool) :
    ∀ (a b : List α), (∀ e ∈ a, p e = true) →
      (a ++ b).dropWhile p = b.dropWhile p := by
  intro a
  induction a with
  | nil => intro b _; rfl
  | cons x xs ih =>
    intro b h
    rw [List.cons_append, List.dropWhile_cons, h x (List.mem_cons_self _ _)]
    rw [if_pos rfl]
    exact ih b (fun e he => h e (List.mem_cons_of_mem _ he))

/-- A trace that ends in a stage-level "failed" update followed only by
the top-level handler's two events, with no earlier failure, never starts
a stage after a failure. -/
theorem noStartAfterFailure_of_shape (tr pre : List DBEvent)
    (rid logId : Nat)
    (htr : tr = pre ++ [DBEvent.updateLog logId "failed",
      DBEvent.createLog rid WorkflowStep.return_results "failed",
      DBEvent.setStatus rid ResearchStatus.failed])
    (hpre : ∀ e ∈ pre, isFailedUpdate e = false) :
    noStartAfterFailure tr := by
  unfold noStartAfterFailure
  rw [htr, dropWhile_append_of_all _ pre _ (fun e he => by rw [hpre e he]; rfl)]
  rfl

theorem execute_input_parsing_error (fault : Option String) (s : WFState)
    (rid : Nat) (topic : String) (m : String)
    (herr : (execute_input_parsing fault s rid topic).2 = Except.error m) :
    (execute_input_parsing fault s rid topic).1.trace = s.trace ++
      [DBEvent.createLog rid WorkflowStep.input_parsing "started",
       DBEvent.updateLog s.db.next_log_id "failed"] := by
  cases fault with
  | some m2 =>
    rw [execute_input_parsing.eq_def]
    dsimp only
    simp
  | none =>
    rw [execute_input_parsing.eq_def] at herr ⊢
    dsimp only at herr ⊢
    by_cases h1 : topic = "" ∨ (pyStrip topic).length < 3
    · rw [if_pos h1]
      simp
    · rw [if_neg h1] at herr ⊢
      by_cases h2 : 500 < topic.length
      · rw [if_pos h2]
        simp
      · rw [if_neg h2] at herr
        simp at herr

theorem execute_input_parsing_ok_tail (fault : Option String) (s : WFState)
    (rid : Nat) (topic : String) (v : Step1Result)
    (hok : (execute_input_parsing fault s rid topic).2 = Except.ok v) :
    ∃ tail, (execute_input_parsing fault s rid topic).1.trace = s.trace ++ tail ∧
      ∀ e ∈ tail, isFailedUpdate e = false := by
  cases fault with
  | some m2 =>
    rw [execute_input_parsing.eq_def] at hok
    dsimp only at hok
    simp at hok
  | none =>
    rw [execute_input_parsing.eq_def] at hok ⊢
    dsimp only at hok ⊢
    by_cases h1 : topic = "" ∨ (pyStrip topic).length < 3
    · rw [if_pos h1] at hok
      simp at hok
    · rw [if_neg h1] at hok ⊢
      by_cases h2 : 500 < topic.length
      · rw [if_pos h2] at hok
        simp at hok
      · rw [if_neg h2]
        refine ⟨[DBEvent.createLog rid WorkflowStep.input_parsing "started",
          DBEvent.updateLog s.db.next_log_id "completed"], by simp, ?_⟩
        intro e he
        rcases List.mem_cons.mp he with he | he
        · rw [he]; rfl
        · rw [List.mem_singleton.mp he]; rfl

theorem execute_data_gathering_error (fault : Option String) (s : WFState)
    (rid : Nat) (topic : String) (wiki hn : Except String (List RawArticle))
    (m : String)
    (herr : (execute_data_gathering fault s rid topic wiki hn).2 =
      Except.error m) :
    (execute_data_gathering fault s rid topic wiki hn).1.trace = s.trace ++
      [DBEvent.createLog rid WorkflowStep.data_gathering "started",
       DBEvent.updateLog s.db.next_log_id "failed"] := by
  rw [execute_data_gathering.eq_def] at herr ⊢
  dsimp only at herr ⊢
  cases fault with
  | some m2 => simp
  | none => simp at herr

theorem execute_data_gathering_ok_tail (fault : Option String) (s : WFState)
    (rid : Nat) (topic : String) (wiki hn : Except String (List RawArticle))
    (v : List GatheredArticle)
    (hok : (execute_data_gathering fault s rid topic wiki hn).2 = Except.ok v) :
    ∃ tail,
      (execute_data_gathering fault s rid topic wiki hn).1.trace =
        s.trace ++ tail ∧
      ∀ e ∈ tail, isFailedUpdate e = false := by
  rw [execute_data_gathering.eq_def] at hok ⊢
  dsimp only at hok ⊢
  cases fault with
  | some m2 => simp at hok
  | none =>
    refine ⟨[DBEvent.createLog rid WorkflowStep.data_gathering "started",
      DBEvent.updateLog s.db.next_log_id "completed"], by simp, ?_⟩
    intro e he
    rcases List.mem_cons.mp he with he | he
    · rw [he]; rfl
    · rw [List.mem_singleton.mp he]; rfl

theorem execute_processing_error (fault : Option String) (s : WFState)
    (rid : Nat) (articles : List GatheredArticle) (m : String)
    (herr : (execute_processing fault s rid articles).2 = Except.error m) :
    (execute_processing fault s rid articles).1.trace = s.trace ++
      [DBEvent.createLog rid WorkflowStep.processing "started",
       DBEvent.updateLog s.db.next_log_id "failed"] := by
  rw [execute_processing.eq_def] at herr ⊢
  dsimp only at herr ⊢
  cases fault with
  | some m2 => simp
  | none => simp at herr

theorem execute_processing_ok_tail (fault : Option String) (s : WFState)
    (rid : Nat) (articles : List GatheredArticle) (v : ProcessResult)
    (hok : (execute_processing fault s rid articles).2 = Except.ok v) :
    ∃ tail, (execute_processing fault s rid articles).1.trace = s.trace ++ tail ∧
      ∀ e ∈ tail, isFailedUpdate e = false := by
  rw [execute_processing.eq_def] at hok ⊢
  dsimp only at hok ⊢
  cases fault with
  | some m2 => simp at hok
  | none =>
    refine ⟨[DBEvent.createLog rid WorkflowStep.processing "started",
      DBEvent.updateLog s.db.next_log_id "completed"], by simp, ?_⟩
    intro e he
    rcases List.mem_cons.mp he with he | he
    · rw [he]; rfl
    · rw [List.mem_singleton.mp he]; rfl

theorem foldl_createArticle_no_failed (rid : Nat) :
    ∀ (l : List GatheredArticle) (s : WFState),
      ∃ tail,
        (l.foldl (fun st a => svcCreateArticle st rid a) s).trace =
          s.trace ++ tail ∧
        ∀ e ∈ tail, isFailedUpdate e = false := by
  intro l
  induction l with
  | nil => intro s; exact ⟨[], by simp, by intro e he; cases he⟩
  | cons a rest ih =>
    intro s
    rw [List.foldl_cons]
    obtain ⟨tail, htr, hnf⟩ := ih (svcCreateArticle s rid a)
    refine ⟨DBEvent.createArticle rid :: tail, ?_, ?_⟩
    · rw [htr, svcCreateArticle_trace]
      simp
    · intro e he
      rcases List.mem_cons.mp he with he | he
      · rw [he]; rfl
      · exact hnf e he

theorem execute_result_persistence_error (fault : Option String) (s : WFState)
    (rid : Nat) (processed : ProcessResult) (m : String)
    (herr : (execute_result_persistence fault s rid processed).2 =
      Except.error m) :
    (execute_result_persistence fault s rid processed).1.trace = s.trace ++
      [DBEvent.createLog rid WorkflowStep.result_persistence "started",
       DBEvent.updateLog s.db.next_log_id "failed"] := by
  cases fault with
  | some m2 =>
    rw [execute_result_persistence.eq_def]
    dsimp only
    simp
  | none =>
    rw [execute_result_persistence.eq_def] at herr
    dsimp only at herr
    simp at herr

theorem execute_result_persistence_ok_tail (fault : Option String)
    (s : WFState) (rid : Nat) (processed : ProcessResult) (v : PersistResult)
    (hok : (execute_result_persistence fault s rid processed).2 = Except.ok v) :
    ∃ tail,
      (execute_result_persistence fault s rid processed).1.trace =
        s.trace ++ tail ∧
      ∀ e ∈ tail, isFailedUpdate e = false := by
  cases fault with
  | some m2 =>
    rw [execute_result_persistence.eq_def] at hok
    dsimp only at hok
    simp at hok
  | none =>
    rw [execute_result_persistence.eq_def]
    dsimp only
    obtain ⟨atail, htr, hnf⟩ := foldl_createArticle_no_failed rid
      processed.top_articles
      (svcCreateLog s rid WorkflowStep.result_persistence "started"
        (some "Saving processed results to database") none)
    refine ⟨DBEvent.createLog rid WorkflowStep.result_persistence "started" ::
      (atail ++ [DBEvent.updateLog s.db.next_log_id "completed"]), ?_, ?_⟩
    · rw [svcUpdateLog_trace, htr, svcCreateLog_trace]
      simp
    · intro e he
      rcases List.mem_cons.mp he with he | he
      · rw [he]; rfl
      · rcases List.mem_append.mp he with he | he
        · exact hnf e he
        · rw [List.mem_singleton.mp he]; rfl

theorem execute_return_results_error (fault : Option String) (s : WFState)
    (rid : Nat) (persisted : PersistResult) (workflow_start : Nat) (m : String)
    (herr : (execute_return_results fault s rid persisted workflow_start).2 =
      Except.error m) :
    (execute_return_results fault s rid persisted workflow_start).1.trace =
      s.trace ++
        [DBEvent.createLog rid WorkflowStep.return_results "started",
         DBEvent.updateLog s.db.next_log_id "failed"] := by
  cases fault with
  | some m2 =>
    rw [execute_return_results.eq_def]
    dsimp only
    simp
  | none =>
    rw [execute_return_results.eq_def] at herr ⊢
    dsimp only at herr ⊢
    rcases hdet : get_research_request_detail
      (svcCreateLog s rid WorkflowStep.return_results "started"
        (some "Preparing final structured results") none).db rid with _ | d
    · simp
    · rw [hdet] at herr
      simp at herr

theorem execute_return_results_ok_tail (fault : Option String) (s : WFState)
    (rid : Nat) (persisted : PersistResult) (workflow_start : Nat)
    (v : FinalResults)
    (hok : (execute_return_results fault s rid persisted workflow_start).2 =
      Except.ok v) :
    ∃ tail,
      (execute_return_results fault s rid persisted workflow_start).1.trace =
        s.trace ++ tail ∧
      ∀ e ∈ tail, isFailedUpdate e = false := by
  cases fault with
  | some m2 =>
    rw [execute_return_results.eq_def] at hok
    dsimp only at hok
    simp at hok
  | none =>
    rw [execute_return_results.eq_def] at hok ⊢
    dsimp only at hok ⊢
    rcases hdet : get_research_request_detail
      (svcCreateLog s rid WorkflowStep.return_results "started"
        (some "Preparing final structured results") none).db rid with _ | d
    · rw [hdet] at hok
      simp at hok
    · refine ⟨[DBEvent.createLog rid WorkflowStep.return_results "started",
        DBEvent.updateLog s.db.next_log_id "completed"], by simp, ?_⟩
      intro e he
      rcases List.mem_cons.mp he with he | he
      · rw [he]; rfl
      · rw [List.mem_singleton.mp he]; rfl

/-- Run-level failure shape, given that the job exists: either the run
succeeds, or its trace is some failure-free prefix followed by exactly
three events — the failing stage's own log entry being updated to
"failed", the handler's `return_results`-labelled "failed" log creation,
and the handler's status write.  In particular nothing at all, and no
stage start in particular, happens after the stage-level failure. -/
theorem run_failure_shape (cfg : RunConfig) (rid : Nat) (db : DB)
    (job : ResearchRequest)
    (hjob : get_research_request db rid = some job) :
    (∃ final, (start_research_workflow cfg rid db).2 = Except.ok final) ∨
    ∃ pre logId,
      (start_research_workflow cfg rid db).1.trace =
        pre ++ [DBEvent.updateLog logId "failed",
          DBEvent.createLog rid WorkflowStep.return_results "failed",
          DBEvent.setStatus rid ResearchStatus.failed] ∧
      ∀ e ∈ pre, isFailedUpdate e = false := by
  rw [start_research_workflow.eq_def, hjob]
  dsimp only
  set s1 : WFState :=
    svcSetStatus { db := db, trace := [] } rid ResearchStatus.processing
      none none with hs1
  have hsstr : s1.trace = [DBEvent.setStatus rid ResearchStatus.processing] := by
    rw [hs1]
    rfl
  have hnf0 : ∀ e ∈ s1.trace, isFailedUpdate e = false := by
    rw [hsstr]
    intro e he
    rw [List.mem_singleton.mp he]
    rfl
  set r1 := execute_input_parsing (faultFor cfg WorkflowStep.input_parsing) s1
    rid job.topic with hr1
  rcases hv1 : r1.2 with e | step1 <;> dsimp only
  · have hfail := execute_input_parsing_error
      (faultFor cfg WorkflowStep.input_parsing) s1 rid job.topic e
      (by rw [← hr1]; exact hv1)
    rw [← hr1] at hfail
    refine Or.inr ⟨s1.trace ++
      [DBEvent.createLog rid WorkflowStep.input_parsing "started"],
      s1.db.next_log_id, ?_, ?_⟩
    · rw [failWorkflow_trace, hfail]
      simp
    · intro e2 he2
      rcases List.mem_append.mp he2 with h | h
      · exact hnf0 e2 h
      · rw [List.mem_singleton.mp h]
        rfl
  · obtain ⟨t1, htl1, hnft1⟩ := execute_input_parsing_ok_tail
      (faultFor cfg WorkflowStep.input_parsing) s1 rid job.topic step1
      (by rw [← hr1]; exact hv1)
    rw [← hr1] at htl1
    have hnf1 : ∀ e ∈ r1.1.trace, isFailedUpdate e = false := by
      rw [htl1]
      intro e2 he2
      rcases List.mem_append.mp he2 with h | h
      exacts [hnf0 e2 h, hnft1 e2 h]
    set r2 := execute_data_gathering (faultFor cfg WorkflowStep.data_gathering)
      r1.1 rid job.topic cfg.wiki cfg.hn with hr2
    rcases hv2 : r2.2 with e | articles <;> dsimp only
    · have hfail := execute_data_gathering_error
        (faultFor cfg WorkflowStep.data_gathering) r1.1 rid job.topic
        cfg.wiki cfg.hn e (by rw [← hr2]; exact hv2)
      rw [← hr2] at hfail
      refine Or.inr ⟨r1.1.trace ++
        [DBEvent.createLog rid WorkflowStep.data_gathering "started"],
        r1.1.db.next_log_id, ?_, ?_⟩
      · rw [failWorkflow_trace, hfail]
        simp
      · intro e2 he2
        rcases List.mem_append.mp he2 with h | h
        · exact hnf1 e2 h
        · rw [List.mem_singleton.mp h]
          rfl
    · obtain ⟨t2, htl2, hnft2⟩ := execute_data_gathering_ok_tail
        (faultFor cfg WorkflowStep.data_gathering) r1.1 rid job.topic
        cfg.wiki cfg.hn articles (by rw [← hr2]; exact hv2)
      rw [← hr2] at htl2
      have hnf2 : ∀ e ∈ r2.1.trace, isFailedUpdate e = false := by
        rw [htl2]
        intro e2 he2
        rcases List.mem_append.mp he2 with h | h
        exacts [hnf1 e2 h, hnft2 e2 h]
      set r3 := execute_processing (faultFor cfg WorkflowStep.processing)
        r2.1 rid articles with hr3
      rcases hv3 : r3.2 with e | processed <;> dsimp only
      · have hfail := execute_processing_error
          (faultFor cfg WorkflowStep.processing) r2.1 rid articles e
          (by rw [← hr3]; exact hv3)
        rw [← hr3] at hfail
        refine Or.inr ⟨r2.1.trace ++
          [DBEvent.createLog rid WorkflowStep.processing "started"],
          r2.1.db.next_log_id, ?_, ?_⟩
        · rw [failWorkflow_trace, hfail]
          simp
        · intro e2 he2
          rcases List.mem_append.mp he2 with h | h
          · exact hnf2 e2 h
          · rw [List.mem_singleton.mp h]
            rfl
      · obtain ⟨t3, htl3, hnft3⟩ := execute_processing_ok_tail
          (faultFor cfg WorkflowStep.processing) r2.1 rid articles processed
          (by rw [← hr3]; exact hv3)
        rw [← hr3] at htl3
        have hnf3 : ∀ e ∈ r3.1.trace, isFailedUpdate e = false := by
          rw [htl3]
          intro e2 he2
          rcases List.mem_append.mp he2 with h | h
          exacts [hnf2 e2 h, hnft3 e2 h]
        set r4 := execute_result_persistence
          (faultFor cfg WorkflowStep.result_persistence) r3.1 rid processed
          with hr4
        rcases hv4 : r4.2 with e | persisted <;> dsimp only
        · have hfail := execute_result_persistence_error
            (faultFor cfg WorkflowStep.result_persistence) r3.1 rid processed
            e (by rw [← hr4]; exact hv4)
          rw [← hr4] at hfail
          refine Or.inr ⟨r3.1.trace ++
            [DBEvent.createLog rid WorkflowStep.result_persistence "started"],
            r3.1.db.next_log_id, ?_, ?_⟩
          · rw [failWorkflow_trace, hfail]
            simp
          · intro e2 he2
            rcases List.mem_append.mp he2 with h | h
            · exact hnf3 e2 h
            · rw [List.mem_singleton.mp h]
              rfl
        · obtain ⟨t4, htl4, hnft4⟩ := execute_result_persistence_ok_tail
            (faultFor cfg WorkflowStep.result_persistence) r3.1 rid processed
            persisted (by rw [← hr4]; exact hv4)
          rw [← hr4] at htl4
          have hnf4 : ∀ e ∈ r4.1.trace, isFailedUpdate e = false := by
            rw [htl4]
            intro e2 he2
            rcases List.mem_append.mp he2 with h | h
            exacts [hnf3 e2 h, hnft4 e2 h]
          set r5 := execute_return_results
            (faultFor cfg WorkflowStep.return_results) r4.1 rid persisted
            s1.db.clock with hr5
          rcases hv5 : r5.2 with e | final0 <;> dsimp only
          · have hfail := execute_return_results_error
              (faultFor cfg WorkflowStep.return_results) r4.1 rid persisted
              s1.db.clock e (by rw [← hr5]; exact hv5)
            rw [← hr5] at hfail
            refine Or.inr ⟨r4.1.trace ++
              [DBEvent.createLog rid WorkflowStep.return_results "started"],
              r4.1.db.next_log_id, ?_, ?_⟩
            · rw [failWorkflow_trace, hfail]
              simp
            · intro e2 he2
              rcases List.mem_append.mp he2 with h | h
              · exact hnf4 e2 h
              · rw [List.mem_singleton.mp h]
                rfl
          · exact Or.inl ⟨final0, rfl⟩

/-- C2 (amended): on any uncaught stage exception, exactly one failure log
entry is created under the `return_results` stage label, the started
stages are an in-order prefix of the five, the trace is a failure-free
prefix followed by exactly the failing stage's own "failed" log update and
the handler's two events (so nothing — in particular no later stage's
"started" log entry — follows the stage-level failure), and the job ends
failed with `error_message` = the exception's message (provided that
message is non-empty — an empty one falls through the truthiness guard and
leaves `error_message` unset) while `completed_at` keeps its previous
(unset) value. -/
theorem workflow_failure_handler (cfg : RunConfig) (rid : Nat) (db : DB)
    (job : ResearchRequest) (m : String)
    (hjob : get_research_request db rid = some job)
    (herr : (start_research_workflow cfg rid db).2 = Except.error m) :
    createdFailedCount rid WorkflowStep.return_results
      (start_research_workflow cfg rid db).1.trace = 1 ∧
    (∃ n, n ≤ 5 ∧
      startedSteps rid (start_research_workflow cfg rid db).1.trace =
        stepOrder.take n) ∧
    (∃ pre logId,
      (start_research_workflow cfg rid db).1.trace =
        pre ++ [DBEvent.updateLog logId "failed",
          DBEvent.createLog rid WorkflowStep.return_results "failed",
          DBEvent.setStatus rid ResearchStatus.failed] ∧
      ∀ e ∈ pre, isFailedUpdate e = false) ∧
    noStartAfterFailure (start_research_workflow cfg rid db).1.trace ∧
    ∃ job2,
      (start_research_workflow cfg rid db).1.db.jobs.find?
        (fun j => j.id == rid) = some job2 ∧
      job2.status = ResearchStatus.failed ∧
      job2.completed_at = job.completed_at ∧
      (¬ m = "" → job2.error_message = some m) := by
  obtain ⟨h1, h2, _⟩ := run_master cfg rid db job hjob
  obtain ⟨c1, _, c3⟩ := h2 m herr
  rcases run_failure_shape cfg rid db job hjob with ⟨final, hfin⟩ | hshape
  · rw [herr] at hfin
    exact Except.noConfusion hfin
  · obtain ⟨pre, logId, htr, hpre⟩ := hshape
    exact ⟨c1, h1, ⟨pre, logId, htr, hpre⟩,
      noStartAfterFailure_of_shape _ pre rid logId htr hpre, c3⟩

/-- C2 witness: a run over a one-job store with an exception injected into
stage 2. -/
theorem workflow_failure_handler_witness :
    createdFailedCount 1 WorkflowStep.return_results
      (start_research_workflow wfFailCfg 1 wfDB).1.trace = 1 ∧
    (∃ n, n ≤ 5 ∧
      startedSteps 1 (start_research_workflow wfFailCfg 1 wfDB).1.trace =
        stepOrder.take n) ∧
    (∃ pre logId,
      (start_research_workflow wfFailCfg 1 wfDB).1.trace =
        pre ++ [DBEvent.updateLog logId "failed",
          DBEvent.createLog 1 WorkflowStep.return_results "failed",
          DBEvent.setStatus 1 ResearchStatus.failed] ∧
      ∀ e ∈ pre, isFailedUpdate e = false) ∧
    noStartAfterFailure (start_research_workflow wfFailCfg 1 wfDB).1.trace ∧
    ∃ job2,
      (start_research_workflow wfFailCfg 1 wfDB).1.db.jobs.find?
        (fun j => j.id == 1) = some job2 ∧
      job2.status = ResearchStatus.failed ∧
      job2.completed_at = wfJob.completed_at ∧
      (¬ "boom" = "" → job2.error_message = some "boom") :=
  workflow_failure_handler wfFailCfg 1 wfDB wfJob "boom" rfl rfl
